import Mathlib

/-!
MESCtemp: thermistor conversion engine

A shallow embedding of `MESC_Common/Src/MESCtemp.c` and the properties of its
specification.

Conventions of the embedding.

* `float` values are exact reals.  `logf`/`log` is `Real.log`, `expf` is
  `Real.exp`, `sqrtf` is `Real.sqrt`, `powf` is the real power `Real.rpow`.
  Where a float operation would give an infinity or a NaN (division by zero,
  logarithm or fractional power of a non-positive number) the real operation
  has Mathlib's total value; every property below that depends on such a point
  excludes it by hypothesis.
* Where the rounding of binary32 decides a property (a value on a boundary of
  the conversion to `uint32_t`, a cancellation, an absorbed summand), the
  property is stated of the definitions with suffix `_f32`, in which every
  `float` operation of the source is followed by the rounding `fl` to the
  nearest binary32 value.
* The file-scope pointer `temp_profile` is read by the conversion functions;
  here they take the record it points to as their first argument.
* `temp_init` is the only function that writes state; it is a function on an
  explicit state record and is given fuel for its self call.
-/

namespace MESCtemp

/-! ## Data model -/

/-- Modelled from the spec: the enumeration `TEMPSchema` is declared in
`MESCtemp.h`, which is not among the sources.  The two enumerators are the ones
the source switches on; `TEMP_SCHEMA_R_F_ON_R_T` is the spec's
`DividerFixedOnTop` and `TEMP_SCHEMA_R_T_ON_R_F` its `DividerThermistorOnTop`. -/
inductive TEMPSchema where
  | TEMP_SCHEMA_R_F_ON_R_T : TEMPSchema
  | TEMP_SCHEMA_R_T_ON_R_F : TEMPSchema
  deriving DecidableEq

/-- Modelled from the spec: the enumeration `TEMPMethod` is declared in
`MESCtemp.h`, which is not among the sources.  `TEMP_METHOD_CURVE_APPROX` is the
spec's `LogLinearApprox`, `TEMP_METHOD_STEINHART_HART_ABC` its
`SteinhartHartABC`, `TEMP_METHOD_STEINHART_HART_BETA_R` its
`SteinhartHartBetaR`. -/
inductive TEMPMethod where
  | TEMP_METHOD_CURVE_APPROX : TEMPMethod
  | TEMP_METHOD_STEINHART_HART_ABC : TEMPMethod
  | TEMP_METHOD_STEINHART_HART_BETA_R : TEMPMethod
  deriving DecidableEq

/-- The values of the C type `uint32_t`. -/
abbrev uint32_t : Type := Fin 4294967296

/-- Modelled from the spec: member `parameters.approx` of `TEMPProfile`
(declared in `MESCtemp.h`, not among the sources), with the fields the source
reads. -/
structure TEMPApprox where
  A : ℝ
  B : ℝ
  Tlo : ℝ

/-- Modelled from the spec: member `parameters.SH` of `TEMPProfile` (declared in
`MESCtemp.h`, not among the sources), with the fields the source reads and
writes. -/
structure TEMPSteinhartHart where
  A : ℝ
  B : ℝ
  C : ℝ
  Beta : ℝ
  r : ℝ
  T0 : ℝ
  R0 : ℝ

/-- Modelled from the spec: member `parameters` of `TEMPProfile` (declared in
`MESCtemp.h`, not among the sources).  Both members are kept side by side; no
property below reads a member other than the one selected by `method`. -/
structure TEMPParameters where
  approx : TEMPApprox
  SH : TEMPSteinhartHart

/-- Modelled from the spec: the record `TEMPProfile` is declared in
`MESCtemp.h`, which is not among the sources.  The fields are the ones the
source dereferences: `V`, `R_F`, `adc_range` (a `uint32_t`), `method`, `schema`
and `parameters`. -/
structure TEMPProfile where
  V : ℝ
  R_F : ℝ
  adc_range : uint32_t
  method : TEMPMethod
  schema : TEMPSchema
  parameters : TEMPParameters

/-! ## Parameter store: `temp_init` -/

/-- Pointer values of type `TEMPProfile const *` that `temp_init` can see:
the null pointer, the address of the block-scope `static TEMPProfile
temp_profile` declared inside `temp_init`, and the address of any other
object. -/
inductive ProfilePtr where
  | null : ProfilePtr
  | static_temp_profile : ProfilePtr
  | object : ℕ → ProfilePtr
  deriving DecidableEq

/-- The constants and the collaborator `temp_init` uses and that are declared in
headers not among the sources (`MESCprofile.h`, `MESCtemp.h`): they are
parameters of the embedding.  `profile_get_entry name signature buffer length`
returns the status and the new contents of the buffer. -/
structure TempEnv where
  PROFILE_DEFAULT : ProfilePtr
  PROFILE_STATUS_SUCCESS : ℕ
  TEMP_PROFILE_SIGNATURE : ℕ
  sizeof_TEMPProfile : ℕ
  profile_get_entry : String → ℕ → TEMPProfile → ℕ → ℕ × TEMPProfile

/-- The state `temp_init` reads and writes: the file-scope pointer
`temp_profile` (the active profile), the contents of the block-scope static
record, the strings handed to `cli_reply` in order, and the number of calls
made to `profile_get_entry`. -/
structure TempState where
  temp_profile : ProfilePtr
  static_temp_profile : TEMPProfile
  cli_out : List String
  get_entry_calls : ℕ

/-- The function `temp_init` (MESCtemp.c lines 42-63).  The self call consumes
one unit of fuel; `none` means the fuel ran out.  After the `if` block, also
after the self call has returned, control reaches the final assignment
`temp_profile = profile`, which writes the file-scope pointer (the block-scope
static of the same name is out of scope there). -/
def temp_init (env : TempEnv) : ℕ → ProfilePtr → TempState → Option TempState
  | 0, _, _ => none
  | fuel + 1, profile, s =>
    if profile = env.PROFILE_DEFAULT then
      let temp_length := env.sizeof_TEMPProfile
      let res := env.profile_get_entry "TEMP" env.TEMP_PROFILE_SIGNATURE
        s.static_temp_profile temp_length
      let ret := res.1
      let s1 : TempState :=
        { s with static_temp_profile := res.2, get_entry_calls := s.get_entry_calls + 1 }
      if ret ≠ env.PROFILE_STATUS_SUCCESS then
        some { s1 with cli_out := s1.cli_out ++ ["TEMP FAILED\r\n"] }
      else
        match temp_init env fuel ProfilePtr.static_temp_profile s1 with
        | none => none
        | some s2 => some { s2 with temp_profile := profile }
    else
      some { s with temp_profile := profile }

/-! ## Conversion engine -/

noncomputable section

/-- Modelled from the spec: the macro `CVT_KELVIN_TO_CELSIUS_F` is defined in
`conversions.h`, which is not among the sources; the spec gives the exact
Kelvin to Celsius offset, `- 273.15`. -/
def CVT_KELVIN_TO_CELSIUS_F (K : ℝ) : ℝ := K - 273.15

/-- Modelled from the spec: the macro `CVT_CELSIUS_TO_KELVIN_F` is defined in
`conversions.h`, which is not among the sources; the spec gives the exact
Celsius to Kelvin offset, `+ 273.15`. -/
def CVT_CELSIUS_TO_KELVIN_F (T : ℝ) : ℝ := T + 273.15

/-- The function `temp_calculate_R_T` (lines 105-131).  The `default` branch of
the source (`return 0.0`) is taken for no value of the closed type
`TEMPSchema`. -/
def temp_calculate_R_T (temp_profile : TEMPProfile) (Vout : ℝ) : ℝ :=
  match temp_profile.schema with
  | TEMPSchema.TEMP_SCHEMA_R_F_ON_R_T =>
    let num := Vout * temp_profile.R_F
    let den := temp_profile.V - Vout
    let R_T := num / den
    R_T
  | TEMPSchema.TEMP_SCHEMA_R_T_ON_R_F =>
    let num := temp_profile.V * temp_profile.R_F
    let den := Vout
    let R_T := (num / den) - temp_profile.R_F
    R_T

/-- The function `temp_calculate_approximation` (lines 148-154). -/
def temp_calculate_approximation (temp_profile : TEMPProfile) (R_T : ℝ) : ℝ :=
  let ln_R_T := Real.log R_T
  let T := ((ln_R_T - temp_profile.parameters.approx.B) / temp_profile.parameters.approx.A)
    + temp_profile.parameters.approx.Tlo
  T

/-- The function `temp_derive_SteinhartHart_ABC_from_points` (lines 160-180):
the arrays `R` and `T` have three elements; the result is the profile with
`parameters.SH.C`, `.B`, `.A` assigned in that order. -/
def temp_derive_SteinhartHart_ABC_from_points (profile : TEMPProfile)
    (R : Fin 3 → ℝ) (T : Fin 3 → ℝ) : TEMPProfile :=
  let L : Fin 3 → ℝ := fun i => Real.log (R i)
  let Y : Fin 3 → ℝ := fun i => 1 / T i
  let g1 := (Y 1 - Y 0) / (L 1 - L 0)
  let g2 := (Y 2 - Y 0) / (L 2 - L 0)
  let L0_2 := L 0 * L 0
  let C := ((g2 - g1) / (L 2 - L 1)) * (1 / (L 0 + L 1 + L 2))
  let B := g1 - (C * (L0_2 + (L 0 * L 1) + (L 1 * L 1)))
  let A := Y 0 - (L 0 * (B + (C * L0_2)))
  { profile with
    parameters := { profile.parameters with
      SH := { profile.parameters.SH with C := C, B := B, A := A } } }

/-- The function `temp_derive_SteinhartHart_Beta_r_from_ABC` (lines 182-186):
`Beta` is assigned first and the new `Beta` is read in the assignment of `r`. -/
def temp_derive_SteinhartHart_Beta_r_from_ABC (profile : TEMPProfile) : TEMPProfile :=
  let Beta := 1 / profile.parameters.SH.B
  let r := profile.parameters.SH.R0 * Real.exp (-Beta / profile.parameters.SH.T0)
  { profile with
    parameters := { profile.parameters with
      SH := { profile.parameters.SH with Beta := Beta, r := r } } }

/-- The function `temp_calculate_SteinhartHart_ABC` (lines 188-198); the result
is in Kelvin. -/
def temp_calculate_SteinhartHart_ABC (temp_profile : TEMPProfile) (R_T : ℝ) : ℝ :=
  let ln_R_T := Real.log R_T
  let ln_R_T_3 := ln_R_T * ln_R_T * ln_R_T
  let num : ℝ := 1
  let den := temp_profile.parameters.SH.A + (temp_profile.parameters.SH.B * ln_R_T)
    + (temp_profile.parameters.SH.C * ln_R_T_3)
  let T := num / den
  T

/-- The function `temp_derive_SteinhartHart_ABC_from_Beta` (lines 204-209):
`C`, then `B`, then `A` (which reads the new `B`) are assigned. -/
def temp_derive_SteinhartHart_ABC_from_Beta (profile : TEMPProfile) : TEMPProfile :=
  let C : ℝ := 0
  let B := 1 / profile.parameters.SH.Beta
  let A := profile.parameters.SH.T0 - (B * Real.log profile.parameters.SH.R0)
  { profile with
    parameters := { profile.parameters with
      SH := { profile.parameters.SH with C := C, B := B, A := A } } }

/-- The function `temp_calculate_SteinhartHart_Beta_r` (lines 211-214); the
result is in Kelvin. -/
def temp_calculate_SteinhartHart_Beta_r (temp_profile : TEMPProfile) (R_T : ℝ) : ℝ :=
  temp_profile.parameters.SH.Beta / Real.log (R_T / temp_profile.parameters.SH.r)

/-- The function `temp_read` (lines 220-251).  The source's `switch` has no
`default`; the three cases cover the closed type `TEMPMethod`. -/
def temp_read (temp_profile : TEMPProfile) (adc_raw : uint32_t) : ℝ :=
  let adc : ℝ := ((adc_raw : ℕ) : ℝ)
  let Vout := (temp_profile.V * adc) / ((temp_profile.adc_range : ℕ) : ℝ)
  let R_T := temp_calculate_R_T temp_profile Vout
  match temp_profile.method with
  | TEMPMethod.TEMP_METHOD_CURVE_APPROX =>
    temp_calculate_approximation temp_profile R_T
  | TEMPMethod.TEMP_METHOD_STEINHART_HART_ABC =>
    let K := temp_calculate_SteinhartHart_ABC temp_profile R_T
    CVT_KELVIN_TO_CELSIUS_F K
  | TEMPMethod.TEMP_METHOD_STEINHART_HART_BETA_R =>
    let K := temp_calculate_SteinhartHart_Beta_r temp_profile R_T
    CVT_KELVIN_TO_CELSIUS_F K

/-- The first `switch` of `temp_get_adc` (lines 257-287): the model resistance
`R_T` at the Celsius temperature `T`, by method. -/
def temp_get_adc_R_T (temp_profile : TEMPProfile) (T : ℝ) : ℝ :=
  match temp_profile.method with
  | TEMPMethod.TEMP_METHOD_CURVE_APPROX =>
    Real.exp (((T - temp_profile.parameters.approx.Tlo) * temp_profile.parameters.approx.A)
      + temp_profile.parameters.approx.B)
  | TEMPMethod.TEMP_METHOD_STEINHART_HART_ABC =>
    let K := CVT_CELSIUS_TO_KELVIN_F T
    let x := (1 / temp_profile.parameters.SH.C) * (temp_profile.parameters.SH.A - (1 / K))
    let Br3C := temp_profile.parameters.SH.C / (3 * temp_profile.parameters.SH.C)
    let y := Real.sqrt (Real.rpow Br3C 3 + (x * x / 4))
    let p : ℝ := 1 / 3
    let xr2 := x / 2
    let y_m_xr2_p := Real.rpow (y - xr2) p
    let y_p_xr2_p := Real.rpow (y + xr2) p
    Real.exp (y_m_xr2_p - y_p_xr2_p)
  | TEMPMethod.TEMP_METHOD_STEINHART_HART_BETA_R =>
    let K := CVT_CELSIUS_TO_KELVIN_F T
    temp_profile.parameters.SH.r * Real.exp (temp_profile.parameters.SH.Beta / K)

/-- The second `switch` of `temp_get_adc` (lines 289-303): the divider output
voltage for the resistance `R_T`, by schema. -/
def temp_get_adc_Vout (temp_profile : TEMPProfile) (R_T : ℝ) : ℝ :=
  match temp_profile.schema with
  | TEMPSchema.TEMP_SCHEMA_R_F_ON_R_T =>
    (temp_profile.V * R_T) / (temp_profile.R_F + R_T)
  | TEMPSchema.TEMP_SCHEMA_R_T_ON_R_F =>
    (temp_profile.V * temp_profile.R_F) / (temp_profile.R_F + R_T)

/-- The C conversion `(uint32_t)x` of a floating value `x`: the fractional part
is discarded (truncation toward zero), and the behaviour is undefined, here
`none`, when the truncated value is not a value of `uint32_t`. -/
def float_to_uint32 (x : ℝ) : Option ℕ :=
  let z : ℤ := if 0 ≤ x then ⌊x⌋ else ⌈x⌉
  if 0 ≤ z ∧ z < 4294967296 then some z.toNat else none

/-- The function `temp_get_adc` (lines 253-308): the two switches followed by
the scaling to ADC counts and the conversion to `uint32_t`. -/
def temp_get_adc (temp_profile : TEMPProfile) (T : ℝ) : Option ℕ :=
  let R_T := temp_get_adc_R_T temp_profile T
  let Vout := temp_get_adc_Vout temp_profile R_T
  float_to_uint32 ((Vout * ((temp_profile.adc_range : ℕ) : ℝ)) / temp_profile.V)

/-! ### Local variables of the source, named for the statements about them -/

/-- The local `Vout` of `temp_read` (line 223). -/
def temp_read_Vout (temp_profile : TEMPProfile) (adc_raw : uint32_t) : ℝ :=
  (temp_profile.V * ((adc_raw : ℕ) : ℝ)) / ((temp_profile.adc_range : ℕ) : ℝ)

/-- The local `num` of `temp_calculate_R_T` (lines 111 and 119), by schema. -/
def temp_calculate_R_T_num (temp_profile : TEMPProfile) (Vout : ℝ) : ℝ :=
  match temp_profile.schema with
  | TEMPSchema.TEMP_SCHEMA_R_F_ON_R_T => Vout * temp_profile.R_F
  | TEMPSchema.TEMP_SCHEMA_R_T_ON_R_F => temp_profile.V * temp_profile.R_F

/-- The local `den` of `temp_calculate_R_T` (lines 112 and 120), by schema. -/
def temp_calculate_R_T_den (temp_profile : TEMPProfile) (Vout : ℝ) : ℝ :=
  match temp_profile.schema with
  | TEMPSchema.TEMP_SCHEMA_R_F_ON_R_T => temp_profile.V - Vout
  | TEMPSchema.TEMP_SCHEMA_R_T_ON_R_F => Vout

/-- The local `x` of the A/B/C branch of `temp_get_adc` (line 268). -/
def temp_get_adc_ABC_x (temp_profile : TEMPProfile) (T : ℝ) : ℝ :=
  let K := CVT_CELSIUS_TO_KELVIN_F T
  (1 / temp_profile.parameters.SH.C) * (temp_profile.parameters.SH.A - (1 / K))

/-- The local `Br3C` of the A/B/C branch of `temp_get_adc` (line 269). -/
def temp_get_adc_ABC_Br3C (temp_profile : TEMPProfile) : ℝ :=
  temp_profile.parameters.SH.C / (3 * temp_profile.parameters.SH.C)

/-- The local `y` of the A/B/C branch of `temp_get_adc` (line 270). -/
def temp_get_adc_ABC_y (temp_profile : TEMPProfile) (T : ℝ) : ℝ :=
  let x := temp_get_adc_ABC_x temp_profile T
  Real.sqrt (Real.rpow (temp_get_adc_ABC_Br3C temp_profile) 3 + (x * x / 4))

/-- The argument of `expf` in the A/B/C branch of `temp_get_adc` (lines
272-277): `y_m_xr2_p - y_p_xr2_p`. -/
def temp_get_adc_ABC_exponent (temp_profile : TEMPProfile) (T : ℝ) : ℝ :=
  let x := temp_get_adc_ABC_x temp_profile T
  let y := temp_get_adc_ABC_y temp_profile T
  let p : ℝ := 1 / 3
  let xr2 := x / 2
  let y_m_xr2_p := Real.rpow (y - xr2) p
  let y_p_xr2_p := Real.rpow (y + xr2) p
  y_m_xr2_p - y_p_xr2_p

end

/-! ## Reference definitions, following the words of the specification -/

noncomputable section

/-- Reference definition of the spec's resistance-from-output-voltage:
`DividerFixedOnTop`: `R_T = Vout·R_F / (V − Vout)`; `DividerThermistorOnTop`:
`R_T = V·R_F/Vout − R_F`. -/
def resistance_from_vout (p : TEMPProfile) (Vout : ℝ) : ℝ :=
  match p.schema with
  | TEMPSchema.TEMP_SCHEMA_R_F_ON_R_T => Vout * p.R_F / (p.V - Vout)
  | TEMPSchema.TEMP_SCHEMA_R_T_ON_R_F => p.V * p.R_F / Vout - p.R_F

/-- Reference definition of the spec's temperature-from-resistance, in Celsius:
`LogLinearApprox`: `T = (ln(R_T) − B)/A + Tlo`; `SteinhartHartABC`:
`1 / (A + B·ln(R_T) + C·ln(R_T)^3)` less `273.15`; `SteinhartHartBetaR`:
`Beta / ln(R_T / r)` less `273.15`. -/
def temperature_from_resistance (p : TEMPProfile) (R_T : ℝ) : ℝ :=
  match p.method with
  | TEMPMethod.TEMP_METHOD_CURVE_APPROX =>
    (Real.log R_T - p.parameters.approx.B) / p.parameters.approx.A + p.parameters.approx.Tlo
  | TEMPMethod.TEMP_METHOD_STEINHART_HART_ABC =>
    1 / (p.parameters.SH.A + p.parameters.SH.B * Real.log R_T
      + p.parameters.SH.C * Real.log R_T ^ 3) - 273.15
  | TEMPMethod.TEMP_METHOD_STEINHART_HART_BETA_R =>
    p.parameters.SH.Beta / Real.log (R_T / p.parameters.SH.r) - 273.15

/-- Reference definition of the spec's `temperature_from_adc`:
`Vout = V·code/adc_range`, then the resistance, then the temperature. -/
def temperature_from_adc (p : TEMPProfile) (code : ℕ) : ℝ :=
  temperature_from_resistance p
    (resistance_from_vout p (p.V * (code : ℝ) / ((p.adc_range : ℕ) : ℝ)))

end

/-! ## Binary32 arithmetic

The definitions above take `float` as an exact real.  The definitions of this
section keep the rounding: every `float` operation of the source is followed by
`fl`, the rounding of a real to the nearest binary32 value, ties to even.  The
exponent range is unbounded (no overflow to infinity, no underflow, no NaN), so
the definitions describe the executions in which every intermediate value is
zero or has magnitude between `2^-126` and `2^128`.  The functions `sqrtf`,
`expf`, `logf` and `powf` return the correctly rounded value.
-/

noncomputable section

end

/-! ## Concrete inputs used by the instances below -/

/-- A profile for the scenario of the spec: 3.3 V excitation, 10 kOhm fixed
resistor, 12-bit converter, thermistor on top, Beta/r method with
`Beta = 3950`, `R0 = 10000`, `T0 = 298.15`. -/
noncomputable def scenarioProfile : TEMPProfile :=
  { V := 3.3
    R_F := 10000
    adc_range := ⟨4096, by norm_num⟩
    method := TEMPMethod.TEMP_METHOD_STEINHART_HART_BETA_R
    schema := TEMPSchema.TEMP_SCHEMA_R_T_ON_R_F
    parameters :=
      { approx := { A := -1 / 25, B := 9, Tlo := 25 }
        SH := { A := 0, B := 0, C := 0, Beta := 3950,
                r := 10000 * Real.exp (-3950 / 298.15),
                T0 := 298.15, R0 := 10000 } } }

/-- The ADC code at mid scale of the 12-bit converter. -/
def midScaleCode : uint32_t := ⟨2048, by norm_num⟩

/-- A profile using the A/B/C method with the coefficients of a common 10 kOhm
thermistor. -/
noncomputable def abcProfile : TEMPProfile :=
  { V := 3.3
    R_F := 10000
    adc_range := ⟨4096, by norm_num⟩
    method := TEMPMethod.TEMP_METHOD_STEINHART_HART_ABC
    schema := TEMPSchema.TEMP_SCHEMA_R_T_ON_R_F
    parameters :=
      { approx := { A := -1 / 25, B := 9, Tlo := 25 }
        SH := { A := 0.001129148, B := 0.000234125, C := 0.0000000876741,
                Beta := 3950, r := 10000 * Real.exp (-3950 / 298.15),
                T0 := 298.15, R0 := 10000 } } }

/-- The ADC code at quarter scale of the 12-bit converter. -/
def quarterScaleCode : uint32_t := ⟨1024, by norm_num⟩

/-- A profile whose A/B/C member holds `B = 1/3950` with `R0 = 10000` and
`T0 = 298.15`, before the Beta/r pair is derived. -/
noncomputable def scenarioABCProfile : TEMPProfile :=
  { V := 3.3
    R_F := 10000
    adc_range := ⟨4096, by norm_num⟩
    method := TEMPMethod.TEMP_METHOD_STEINHART_HART_BETA_R
    schema := TEMPSchema.TEMP_SCHEMA_R_T_ON_R_F
    parameters :=
      { approx := { A := -1 / 25, B := 9, Tlo := 25 }
        SH := { A := 0, B := 1 / 3950, C := 0, Beta := 0, r := 0,
                T0 := 298.15, R0 := 10000 } } }

/-- Three resistances with logarithms `0`, `1`, `2`. -/
noncomputable def fitR : Fin 3 → ℝ := ![1, Real.exp 1, Real.exp 2]

/-- The Kelvin temperatures the model `1/T = 1 + ln R + ln(R)^3` gives at
`fitR`. -/
noncomputable def fitT : Fin 3 → ℝ := ![1, 1 / 3, 1 / 11]

/-- An environment in which the sentinel is the null pointer, status `0` is
success, and the stored entry is read successfully as `scenarioProfile`. -/
noncomputable def envLoadOk : TempEnv :=
  { PROFILE_DEFAULT := ProfilePtr.null
    PROFILE_STATUS_SUCCESS := 0
    TEMP_PROFILE_SIGNATURE := 0
    sizeof_TEMPProfile := 64
    profile_get_entry := fun _ _ _ _ => (0, scenarioProfile) }

/-- An environment in which the sentinel is the null pointer, status `0` is
success, and reading the stored entry fails with status `1`, the buffer left as
it was. -/
def envLoadFails : TempEnv :=
  { PROFILE_DEFAULT := ProfilePtr.null
    PROFILE_STATUS_SUCCESS := 0
    TEMP_PROFILE_SIGNATURE := 0
    sizeof_TEMPProfile := 64
    profile_get_entry := fun _ _ buf _ => (1, buf) }

/-- A state in which an earlier call has adopted the caller's profile
`object 7`. -/
noncomputable def stateWithProfile : TempState :=
  { temp_profile := ProfilePtr.object 7
    static_temp_profile := scenarioProfile
    cli_out := []
    get_entry_calls := 0 }

/-! ## Parameter store -/

/-- One call of `temp_init` with a pointer other than the sentinel: the pointer
is stored and nothing else changes. -/
theorem temp_init_concrete (env : TempEnv) (fuel : ℕ) (p : ProfilePtr) (s : TempState)
    (hp : p ≠ env.PROFILE_DEFAULT) :
    temp_init env (fuel + 1) p s = some { s with temp_profile := p } := by
  simp [temp_init, hp]

/-- The successful default path: the self call stores the address of the static
record, and the assignment after the `if` block then stores the sentinel. -/
theorem temp_init_default_success (env : TempEnv) (fuel : ℕ) (s : TempState)
    (hstatic : ProfilePtr.static_temp_profile ≠ env.PROFILE_DEFAULT)
    (hret : (env.profile_get_entry "TEMP" env.TEMP_PROFILE_SIGNATURE
      s.static_temp_profile env.sizeof_TEMPProfile).1 = env.PROFILE_STATUS_SUCCESS) :
    temp_init env (fuel + 2) env.PROFILE_DEFAULT s =
      some { temp_profile := env.PROFILE_DEFAULT
             static_temp_profile := (env.profile_get_entry "TEMP" env.TEMP_PROFILE_SIGNATURE
               s.static_temp_profile env.sizeof_TEMPProfile).2
             cli_out := s.cli_out
             get_entry_calls := s.get_entry_calls + 1 } := by
  simp [temp_init, hret, hstatic]

/-- C3 (evaluation of the code at the failing input): with the sentinel passed
and `profile_get_entry` reporting success, `temp_init` returns with the active
pointer equal to the sentinel (here the null pointer): it is neither the
address of the freshly loaded static record nor the previous pointer
`object 7`. -/
theorem temp_init_default_success_leaves_sentinel :
    Option.map TempState.temp_profile
        (temp_init envLoadOk 2 envLoadOk.PROFILE_DEFAULT stateWithProfile)
      = some ProfilePtr.null ∧
    Option.map TempState.temp_profile
        (temp_init envLoadOk 2 envLoadOk.PROFILE_DEFAULT stateWithProfile)
      ≠ some ProfilePtr.static_temp_profile ∧
    (envLoadOk.profile_get_entry "TEMP" envLoadOk.TEMP_PROFILE_SIGNATURE
        stateWithProfile.static_temp_profile envLoadOk.sizeof_TEMPProfile).1
      = envLoadOk.PROFILE_STATUS_SUCCESS := by
  have h := temp_init_default_success envLoadOk 0 stateWithProfile
    (by simp [envLoadOk]) (by simp [envLoadOk])
  simp only [Nat.zero_add] at h
  rw [h]
  simp [envLoadOk]

/-- C4: when `temp_init` is called with the sentinel and `profile_get_entry`
returns a status other than success, the call returns, the active profile
pointer is the one before the call, and the strings received by `cli_reply` are
the earlier ones followed by exactly one `"TEMP FAILED\r\n"`. -/
theorem temp_init_failure_atomic (env : TempEnv) (fuel : ℕ) (s : TempState)
    (hret : (env.profile_get_entry "TEMP" env.TEMP_PROFILE_SIGNATURE
      s.static_temp_profile env.sizeof_TEMPProfile).1 ≠ env.PROFILE_STATUS_SUCCESS) :
    ∃ s1, temp_init env (fuel + 1) env.PROFILE_DEFAULT s = some s1 ∧
      s1.temp_profile = s.temp_profile ∧
      s1.cli_out = s.cli_out ++ ["TEMP FAILED\r\n"] := by
  refine ⟨{ temp_profile := s.temp_profile
            static_temp_profile := (env.profile_get_entry "TEMP" env.TEMP_PROFILE_SIGNATURE
              s.static_temp_profile env.sizeof_TEMPProfile).2
            cli_out := s.cli_out ++ ["TEMP FAILED\r\n"]
            get_entry_calls := s.get_entry_calls + 1 }, ?_, rfl, rfl⟩
  simp [temp_init, hret]

/-- Instance of C4: a failing load over a state holding the profile
`object 7`. -/
theorem temp_init_failure_atomic_witness :
    (envLoadFails.profile_get_entry "TEMP" envLoadFails.TEMP_PROFILE_SIGNATURE
      stateWithProfile.static_temp_profile envLoadFails.sizeof_TEMPProfile).1
        ≠ envLoadFails.PROFILE_STATUS_SUCCESS ∧
    ∃ s1, temp_init envLoadFails 1 envLoadFails.PROFILE_DEFAULT stateWithProfile = some s1 ∧
      s1.temp_profile = stateWithProfile.temp_profile ∧
      s1.cli_out = stateWithProfile.cli_out ++ ["TEMP FAILED\r\n"] :=
  ⟨by simp [envLoadFails],
   temp_init_failure_atomic envLoadFails 0 stateWithProfile (by simp [envLoadFails])⟩

/-- C5: for every pointer `p` other than the sentinel and every prior state,
`temp_init p` returns, makes `p` the active profile, calls neither
`profile_get_entry` nor `cli_reply`, and a second call leaves the state the
first call produced. -/
theorem temp_init_adopts_concrete (env : TempEnv) (fuel : ℕ) (p : ProfilePtr) (s : TempState)
    (hp : p ≠ env.PROFILE_DEFAULT) :
    ∃ s1, temp_init env (fuel + 1) p s = some s1 ∧
      s1.temp_profile = p ∧
      s1.get_entry_calls = s.get_entry_calls ∧
      s1.cli_out = s.cli_out ∧
      s1.static_temp_profile = s.static_temp_profile ∧
      temp_init env (fuel + 1) p s1 = some s1 := by
  refine ⟨{ s with temp_profile := p }, temp_init_concrete env fuel p s hp, rfl, rfl, rfl, rfl, ?_⟩
  rw [temp_init_concrete env fuel p _ hp]

/-- Instance of C5: adopting the caller's profile `object 3` over a state
holding `object 7`. -/
theorem temp_init_adopts_concrete_witness :
    ProfilePtr.object 3 ≠ envLoadOk.PROFILE_DEFAULT ∧
    ∃ s1, temp_init envLoadOk 1 (ProfilePtr.object 3) stateWithProfile = some s1 ∧
      s1.temp_profile = ProfilePtr.object 3 ∧
      s1.get_entry_calls = stateWithProfile.get_entry_calls ∧
      s1.cli_out = stateWithProfile.cli_out ∧
      s1.static_temp_profile = stateWithProfile.static_temp_profile ∧
      temp_init envLoadOk 1 (ProfilePtr.object 3) s1 = some s1 :=
  ⟨by simp [envLoadOk],
   temp_init_adopts_concrete envLoadOk 0 (ProfilePtr.object 3) stateWithProfile
     (by simp [envLoadOk])⟩

/-! ## Conversion engine: agreement with the reference definitions -/

/-- C6: `temp_read` equals its reference definition for every profile and every
ADC code: `Vout = V*code/adc_range`, `R_T` by schema, and the temperature by
method, `(ln(R_T) - B)/A + Tlo` without Kelvin offset for the log-linear method,
`1/(A + B*ln(R_T) + C*ln(R_T)^3) - 273.15` for A/B/C and
`Beta/ln(R_T/r) - 273.15` for Beta/r. -/
theorem temp_read_eq_reference (p : TEMPProfile) (code : uint32_t) :
    temp_read p code = temperature_from_adc p (code : ℕ) := by
  unfold temp_read temperature_from_adc temperature_from_resistance
  have hR : ∀ v, temp_calculate_R_T p v = resistance_from_vout p v := by
    intro v
    unfold temp_calculate_R_T resistance_from_vout
    cases p.schema <;> rfl
  cases hm : p.method
  · simp only [hR, temp_calculate_approximation]
  · simp only [hR, temp_calculate_SteinhartHart_ABC, CVT_KELVIN_TO_CELSIUS_F]
    ring_nf
  · simp only [hR, temp_calculate_SteinhartHart_Beta_r, CVT_KELVIN_TO_CELSIUS_F]

/-- The conversion to `uint32_t` of a real in `[0, 2^32)` is defined and is its
floor. -/
theorem float_to_uint32_of_nonneg (x : ℝ) (h0 : 0 ≤ x) (h1 : x < 4294967296) :
    float_to_uint32 x = some ⌊x⌋₊ := by
  have hz0 : (0 : ℤ) ≤ ⌊x⌋ := Int.floor_nonneg.mpr h0
  have hz1 : ⌊x⌋ < (4294967296 : ℤ) := Int.floor_lt.mpr (by exact_mod_cast h1)
  simp [float_to_uint32, h0, hz0, hz1, Int.floor_toNat]

/-- Away from the rails the divider resistance computed by `temp_calculate_R_T`
is strictly positive. -/
theorem temp_calculate_R_T_pos (p : TEMPProfile) (Vout : ℝ)
    (hRF : 0 < p.R_F) (h0 : 0 < Vout) (h1 : Vout < p.V) :
    0 < temp_calculate_R_T p Vout := by
  unfold temp_calculate_R_T
  cases p.schema
  · exact div_pos (mul_pos h0 hRF) (by linarith)
  · have h : p.R_F < p.V * p.R_F / Vout := by
      rw [lt_div_iff₀ h0]
      nlinarith
    simpa using sub_pos.mpr h

/-- Away from the rails the divider switch of `temp_get_adc` undoes
`temp_calculate_R_T`. -/
theorem temp_get_adc_Vout_calculate_R_T (p : TEMPProfile) (Vout : ℝ)
    (hRF : 0 < p.R_F) (h0 : 0 < Vout) (h1 : Vout < p.V) :
    temp_get_adc_Vout p (temp_calculate_R_T p Vout) = Vout := by
  have hd : p.V - Vout ≠ 0 := by linarith
  have hV : p.V ≠ 0 := by linarith
  unfold temp_get_adc_Vout temp_calculate_R_T
  cases p.schema
  · simp only
    have e : p.R_F + Vout * p.R_F / (p.V - Vout) = p.R_F * p.V / (p.V - Vout) := by
      field_simp
      ring
    rw [e]
    field_simp
    ring
  · simp only
    have e : p.R_F + (p.V * p.R_F / Vout - p.R_F) = p.V * p.R_F / Vout := by ring
    rw [e]
    field_simp

/-- The log-linear branch of `temp_get_adc` undoes
`temp_calculate_approximation` on positive resistances. -/
theorem temp_get_adc_R_T_approximation (p : TEMPProfile) (R : ℝ)
    (hm : p.method = TEMPMethod.TEMP_METHOD_CURVE_APPROX)
    (hA : p.parameters.approx.A ≠ 0) (hR : 0 < R) :
    temp_get_adc_R_T p (temp_calculate_approximation p R) = R := by
  simp only [temp_get_adc_R_T, hm, temp_calculate_approximation]
  have e : ((Real.log R - p.parameters.approx.B) / p.parameters.approx.A
      + p.parameters.approx.Tlo - p.parameters.approx.Tlo) * p.parameters.approx.A
      + p.parameters.approx.B = Real.log R := by
    field_simp
    ring
  rw [e, Real.exp_log hR]

/-- The Beta/r branch of `temp_get_adc` undoes
`temp_calculate_SteinhartHart_Beta_r` on positive resistances. -/
theorem temp_get_adc_R_T_Beta_r (p : TEMPProfile) (R : ℝ)
    (hm : p.method = TEMPMethod.TEMP_METHOD_STEINHART_HART_BETA_R)
    (hB : p.parameters.SH.Beta ≠ 0) (hr : 0 < p.parameters.SH.r) (hR : 0 < R) :
    temp_get_adc_R_T p (CVT_KELVIN_TO_CELSIUS_F (temp_calculate_SteinhartHart_Beta_r p R))
      = R := by
  simp only [temp_get_adc_R_T, hm, temp_calculate_SteinhartHart_Beta_r,
    CVT_KELVIN_TO_CELSIUS_F, CVT_CELSIUS_TO_KELVIN_F, sub_add_cancel]
  rw [div_div_cancel₀ hB, Real.exp_log (div_pos hR hr)]
  field_simp

/-- The round trip is exact over the reals: the code is recovered. -/
theorem temp_get_adc_temp_read (p : TEMPProfile) (code : uint32_t)
    (hV : 0 < p.V) (hRF : 0 < p.R_F)
    (hm : (p.method = TEMPMethod.TEMP_METHOD_CURVE_APPROX ∧ p.parameters.approx.A ≠ 0) ∨
      (p.method = TEMPMethod.TEMP_METHOD_STEINHART_HART_BETA_R ∧
        p.parameters.SH.Beta ≠ 0 ∧ 0 < p.parameters.SH.r))
    (h0 : 0 < (code : ℕ)) (h1 : (code : ℕ) < (p.adc_range : ℕ)) :
    temp_get_adc p (temp_read p code) = some (code : ℕ) := by
  have hc : (0 : ℝ) < ((code : ℕ) : ℝ) := by exact_mod_cast h0
  have hcN : ((code : ℕ) : ℝ) < ((p.adc_range : ℕ) : ℝ) := by exact_mod_cast h1
  have hN : (0 : ℝ) < ((p.adc_range : ℕ) : ℝ) := lt_trans hc hcN
  have hv0 : 0 < (p.V * ((code : ℕ) : ℝ)) / ((p.adc_range : ℕ) : ℝ) :=
    div_pos (mul_pos hV hc) hN
  have hv1 : (p.V * ((code : ℕ) : ℝ)) / ((p.adc_range : ℕ) : ℝ) < p.V := by
    rw [div_lt_iff₀ hN]
    exact mul_lt_mul_of_pos_left hcN hV
  have hRpos := temp_calculate_R_T_pos p _ hRF hv0 hv1
  have hRT : temp_get_adc_R_T p (temp_read p code)
      = temp_calculate_R_T p ((p.V * ((code : ℕ) : ℝ)) / ((p.adc_range : ℕ) : ℝ)) := by
    rcases hm with ⟨hm, hA⟩ | ⟨hm, hB, hr⟩
    · have e : temp_read p code = temp_calculate_approximation p
          (temp_calculate_R_T p ((p.V * ((code : ℕ) : ℝ)) / ((p.adc_range : ℕ) : ℝ))) := by
        simp only [temp_read, hm]
      rw [e, temp_get_adc_R_T_approximation p _ hm hA hRpos]
    · have e : temp_read p code = CVT_KELVIN_TO_CELSIUS_F (temp_calculate_SteinhartHart_Beta_r p
          (temp_calculate_R_T p ((p.V * ((code : ℕ) : ℝ)) / ((p.adc_range : ℕ) : ℝ)))) := by
        simp only [temp_read, hm]
      rw [e, temp_get_adc_R_T_Beta_r p _ hm hB hr hRpos]
  have hscaled : ((p.V * ((code : ℕ) : ℝ)) / ((p.adc_range : ℕ) : ℝ)
      * ((p.adc_range : ℕ) : ℝ)) / p.V = ((code : ℕ) : ℝ) := by
    field_simp
  have hlt : ((code : ℕ) : ℝ) < 4294967296 := by exact_mod_cast code.isLt
  unfold temp_get_adc
  simp only [hRT, temp_get_adc_Vout_calculate_R_T p _ hRF hv0 hv1, hscaled]
  rw [float_to_uint32_of_nonneg _ hc.le hlt, Nat.floor_natCast]

/-- C1: round trip for the log-linear and the Beta/r method over exact reals.
For `V > 0`, `R_F > 0`, `adc_range > 0`, either schema, the log-linear method
with `A != 0` or the Beta/r method with `Beta != 0`, `r > 0` and thermistor
resistance at the code different from `r`, and `0 < code < adc_range`:
`temp_get_adc (temp_read code)` returns a code that differs from `code` by at
most 1. -/
theorem temp_round_trip (p : TEMPProfile) (code : uint32_t)
    (hV : 0 < p.V) (hRF : 0 < p.R_F) (_hN : 0 < (p.adc_range : ℕ))
    (hm : (p.method = TEMPMethod.TEMP_METHOD_CURVE_APPROX ∧ p.parameters.approx.A ≠ 0) ∨
      (p.method = TEMPMethod.TEMP_METHOD_STEINHART_HART_BETA_R ∧
        p.parameters.SH.Beta ≠ 0 ∧ 0 < p.parameters.SH.r ∧
        temp_calculate_R_T p ((p.V * ((code : ℕ) : ℝ)) / ((p.adc_range : ℕ) : ℝ))
          ≠ p.parameters.SH.r))
    (h0 : 0 < (code : ℕ)) (h1 : (code : ℕ) < (p.adc_range : ℕ)) :
    ∃ c : ℕ, temp_get_adc p (temp_read p code) = some c ∧
      (c : ℤ) - ((code : ℕ) : ℤ) ≤ 1 ∧ ((code : ℕ) : ℤ) - (c : ℤ) ≤ 1 := by
  refine ⟨(code : ℕ), temp_get_adc_temp_read p code hV hRF ?_ h0 h1, by simp, by simp⟩
  rcases hm with h | ⟨hm, hB, hr, _⟩
  · exact Or.inl h
  · exact Or.inr ⟨hm, hB, hr⟩

/-- Instance of C1: the scenario profile (Beta/r method, thermistor on top) at
mid scale, where the thermistor resistance is `R_F = 10000`, different from
`r`. -/
theorem temp_round_trip_witness :
    0 < scenarioProfile.V ∧ 0 < scenarioProfile.R_F ∧
    0 < (scenarioProfile.adc_range : ℕ) ∧
    ((scenarioProfile.method = TEMPMethod.TEMP_METHOD_CURVE_APPROX ∧
        scenarioProfile.parameters.approx.A ≠ 0) ∨
      (scenarioProfile.method = TEMPMethod.TEMP_METHOD_STEINHART_HART_BETA_R ∧
        scenarioProfile.parameters.SH.Beta ≠ 0 ∧ 0 < scenarioProfile.parameters.SH.r ∧
        temp_calculate_R_T scenarioProfile
            ((scenarioProfile.V * ((midScaleCode : ℕ) : ℝ))
              / ((scenarioProfile.adc_range : ℕ) : ℝ))
          ≠ scenarioProfile.parameters.SH.r)) ∧
    0 < (midScaleCode : ℕ) ∧ (midScaleCode : ℕ) < (scenarioProfile.adc_range : ℕ) ∧
    ∃ c : ℕ, temp_get_adc scenarioProfile (temp_read scenarioProfile midScaleCode) = some c ∧
      (c : ℤ) - ((midScaleCode : ℕ) : ℤ) ≤ 1 ∧ ((midScaleCode : ℕ) : ℤ) - (c : ℤ) ≤ 1 := by
  have hV : 0 < scenarioProfile.V := by norm_num [scenarioProfile]
  have hRF : 0 < scenarioProfile.R_F := by norm_num [scenarioProfile]
  have hN : 0 < (scenarioProfile.adc_range : ℕ) := by norm_num [scenarioProfile]
  have h0 : 0 < (midScaleCode : ℕ) := by norm_num [midScaleCode]
  have h1 : (midScaleCode : ℕ) < (scenarioProfile.adc_range : ℕ) := by
    norm_num [midScaleCode, scenarioProfile]
  have hexp : Real.exp (-3950 / 298.15) < 1 := Real.exp_lt_one_iff.mpr (by norm_num)
  have hm : (scenarioProfile.method = TEMPMethod.TEMP_METHOD_CURVE_APPROX ∧
        scenarioProfile.parameters.approx.A ≠ 0) ∨
      (scenarioProfile.method = TEMPMethod.TEMP_METHOD_STEINHART_HART_BETA_R ∧
        scenarioProfile.parameters.SH.Beta ≠ 0 ∧ 0 < scenarioProfile.parameters.SH.r ∧
        temp_calculate_R_T scenarioProfile
            ((scenarioProfile.V * ((midScaleCode : ℕ) : ℝ))
              / ((scenarioProfile.adc_range : ℕ) : ℝ))
          ≠ scenarioProfile.parameters.SH.r) := by
    refine Or.inr ⟨rfl, by norm_num [scenarioProfile], ?_, ?_⟩
    · have : (0 : ℝ) < 10000 * Real.exp (-3950 / 298.15) :=
        mul_pos (by norm_num) (Real.exp_pos _)
      simpa [scenarioProfile] using this
    · have e : temp_calculate_R_T scenarioProfile
            ((scenarioProfile.V * ((midScaleCode : ℕ) : ℝ))
              / ((scenarioProfile.adc_range : ℕ) : ℝ)) = 10000 := by
        norm_num [temp_calculate_R_T, scenarioProfile, midScaleCode]
      rw [e]
      have hr : scenarioProfile.parameters.SH.r = 10000 * Real.exp (-3950 / 298.15) := rfl
      rw [hr]
      intro h
      nlinarith
  exact ⟨hV, hRF, hN, hm, h0, h1, temp_round_trip scenarioProfile midScaleCode hV hRF hN hm h0 h1⟩

/-! ## The A/B/C inverse -/

/-- The cube of the real power `1/3` of a non-negative number is that number. -/
theorem cube_rpow_third (a : ℝ) (ha : 0 ≤ a) : (Real.rpow a (1 / 3)) ^ 3 = a := by
  have h : (Real.rpow a (1 / 3)) ^ 3 = Real.rpow a ((1 / 3) * (3 : ℕ)) := by
    rw [Real.rpow_eq_pow, Real.rpow_eq_pow, Real.rpow_mul ha, Real.rpow_natCast]
  rw [h]
  norm_num

/-- The expression evaluated by the A/B/C branch of `temp_get_adc`, with the
constant `1/27` under the square root: both bases of the cube roots are
positive and the difference of the cube roots is a root of `t^3 + t + x`. -/
theorem cardano_depressed_root (x : ℝ) :
    let y := Real.sqrt (1 / 27 + (x * x / 4))
    let t := Real.rpow (y - x / 2) (1 / 3) - Real.rpow (y + x / 2) (1 / 3)
    0 < y - x / 2 ∧ 0 < y + x / 2 ∧ t ^ 3 + t + x = 0 := by
  intro y t
  have hrad : (0 : ℝ) ≤ 1 / 27 + (x * x / 4) := by nlinarith [mul_self_nonneg x]
  have hy2 : y ^ 2 = 1 / 27 + (x * x / 4) := Real.sq_sqrt hrad
  have hy0 : 0 ≤ y := Real.sqrt_nonneg _
  have habs : |x / 2| < y := by
    apply (Real.lt_sqrt (abs_nonneg _)).mpr
    rw [sq_abs]
    nlinarith
  have ha : 0 < y - x / 2 := by linarith [le_abs_self (x / 2)]
  have hb : 0 < y + x / 2 := by linarith [neg_abs_le (x / 2)]
  refine ⟨ha, hb, ?_⟩
  have hu := cube_rpow_third _ ha.le
  have hv := cube_rpow_third _ hb.le
  have hupos : 0 < Real.rpow (y - x / 2) (1 / 3) := Real.rpow_pos_of_pos ha _
  have hvpos : 0 < Real.rpow (y + x / 2) (1 / 3) := Real.rpow_pos_of_pos hb _
  set u := Real.rpow (y - x / 2) (1 / 3) with hudef
  set v := Real.rpow (y + x / 2) (1 / 3) with hvdef
  have hw3 : (u * v) ^ 3 = 1 / 27 := by
    rw [mul_pow, hu, hv]
    nlinarith
  have hwpos : 0 < u * v := mul_pos hupos hvpos
  have huv : u * v = 1 / 3 := by
    have hfac : (u * v - 1 / 3) * ((u * v) ^ 2 + (u * v) / 3 + 1 / 9) = 0 := by
      ring_nf
      ring_nf at hw3
      linarith
    rcases mul_eq_zero.mp hfac with h | h
    · linarith
    · nlinarith
  show (u - v) ^ 3 + (u - v) + x = 0
  linear_combination hu - hv - 3 * (u - v) * huv

/-- For `C != 0` the logarithm `t` of the resistance computed by the A/B/C
branch of `temp_get_adc` is a root of `t^3 + t + x`, where
`x = (1/C)*(A - 1/K)`. -/
theorem temp_get_adc_R_T_ABC_log (p : TEMPProfile) (T : ℝ)
    (hm : p.method = TEMPMethod.TEMP_METHOD_STEINHART_HART_ABC)
    (hC : p.parameters.SH.C ≠ 0) :
    Real.log (temp_get_adc_R_T p T) ^ 3 + Real.log (temp_get_adc_R_T p T)
      + (1 / p.parameters.SH.C) * (p.parameters.SH.A - 1 / CVT_CELSIUS_TO_KELVIN_F T) = 0 := by
  have hB : Real.rpow (p.parameters.SH.C / (3 * p.parameters.SH.C)) 3 = 1 / 27 := by
    have e : p.parameters.SH.C / (3 * p.parameters.SH.C) = 1 / 3 := by
      field_simp
      ring
    rw [e, Real.rpow_eq_pow]
    norm_num
  simp only [temp_get_adc_R_T, hm, hB, Real.log_exp]
  exact (cardano_depressed_root _).2.2

/-- C2 (evaluation of the code at the failing input): for the A/B/C profile
`abcProfile` (`B != C`) and `T = 25`, the resistance `R_T` computed by the
A/B/C branch of `temp_get_adc` does not satisfy
`C*ln(R_T)^3 + B*ln(R_T) + (A - 1/K) = 0`, and
`temp_calculate_SteinhartHart_ABC R_T` is not `K = 25 + 273.15`. -/
theorem temp_get_adc_ABC_not_inverse :
    abcProfile.method = TEMPMethod.TEMP_METHOD_STEINHART_HART_ABC ∧
    abcProfile.parameters.SH.C ≠ 0 ∧
    0 < CVT_CELSIUS_TO_KELVIN_F 25 ∧
    abcProfile.parameters.SH.C * Real.log (temp_get_adc_R_T abcProfile 25) ^ 3
      + abcProfile.parameters.SH.B * Real.log (temp_get_adc_R_T abcProfile 25)
      + (abcProfile.parameters.SH.A - 1 / CVT_CELSIUS_TO_KELVIN_F 25) ≠ 0 ∧
    temp_calculate_SteinhartHart_ABC abcProfile (temp_get_adc_R_T abcProfile 25)
      ≠ CVT_CELSIUS_TO_KELVIN_F 25 := by
  have hm : abcProfile.method = TEMPMethod.TEMP_METHOD_STEINHART_HART_ABC := rfl
  have hA : abcProfile.parameters.SH.A = 0.001129148 := rfl
  have hB : abcProfile.parameters.SH.B = 0.000234125 := rfl
  have hCv : abcProfile.parameters.SH.C = 0.0000000876741 := rfl
  have hC : abcProfile.parameters.SH.C ≠ 0 := by rw [hCv]; norm_num
  have hK : CVT_CELSIUS_TO_KELVIN_F 25 = 298.15 := by
    norm_num [CVT_CELSIUS_TO_KELVIN_F]
  have hKpos : 0 < CVT_CELSIUS_TO_KELVIN_F 25 := by rw [hK]; norm_num
  have hcub := temp_get_adc_R_T_ABC_log abcProfile 25 hm hC
  have hres : abcProfile.parameters.SH.C * Real.log (temp_get_adc_R_T abcProfile 25) ^ 3
      + abcProfile.parameters.SH.B * Real.log (temp_get_adc_R_T abcProfile 25)
      + (abcProfile.parameters.SH.A - 1 / CVT_CELSIUS_TO_KELVIN_F 25) ≠ 0 := by
    intro h
    generalize Real.log (temp_get_adc_R_T abcProfile 25) = t at hcub h
    rw [hA, hCv, hK] at hcub
    rw [hA, hB, hCv, hK] at h
    have ht : t = 0 := by
      have h2 : (0.000234125 - 0.0000000876741 : ℝ) * t = 0 := by
        have h3 : (0.0000000876741 : ℝ) * (t ^ 3 + t
            + 1 / 0.0000000876741 * (0.001129148 - 1 / 298.15)) = 0 := by
          rw [hcub, mul_zero]
        have h4 : (0.0000000876741 : ℝ) * (1 / 0.0000000876741 * (0.001129148 - 1 / 298.15))
            = 0.001129148 - 1 / 298.15 := by
          norm_num
        linarith
      rcases mul_eq_zero.mp h2 with h5 | h5
      · norm_num at h5
      · exact h5
    rw [ht] at hcub
    norm_num at hcub
  refine ⟨hm, hC, hKpos, hres, ?_⟩
  intro h
  apply hres
  unfold temp_calculate_SteinhartHart_ABC at h
  simp only at h
  have hden : abcProfile.parameters.SH.A
      + abcProfile.parameters.SH.B * Real.log (temp_get_adc_R_T abcProfile 25)
      + abcProfile.parameters.SH.C * (Real.log (temp_get_adc_R_T abcProfile 25)
          * Real.log (temp_get_adc_R_T abcProfile 25)
          * Real.log (temp_get_adc_R_T abcProfile 25))
      = 1 / CVT_CELSIUS_TO_KELVIN_F 25 := by
    rw [← h, one_div_one_div]
  linear_combination hden

/-! ## Coefficient derivation -/

/-- C8: three-point fit exactness over exact reals.  For every `A`, `B`, `C` and
resistances `R 0`, `R 1`, `R 2 > 0` whose logarithms `L i` are pairwise distinct
with `L 0 + L 1 + L 2 != 0`, and Kelvin temperatures `T i != 0` with
`1/T i = A + B*L i + C*(L i)^3`, `temp_derive_SteinhartHart_ABC_from_points`
stores exactly `A`, `B` and `C`. -/
theorem temp_derive_SteinhartHart_ABC_from_points_exact (profile : TEMPProfile)
    (A B C : ℝ) (R T : Fin 3 → ℝ)
    (_hR : ∀ i, 0 < R i)
    (h01 : Real.log (R 0) ≠ Real.log (R 1))
    (h02 : Real.log (R 0) ≠ Real.log (R 2))
    (h12 : Real.log (R 1) ≠ Real.log (R 2))
    (hsum : Real.log (R 0) + Real.log (R 1) + Real.log (R 2) ≠ 0)
    (_hT : ∀ i, T i ≠ 0)
    (hfit : ∀ i, 1 / T i = A + B * Real.log (R i) + C * Real.log (R i) ^ 3) :
    (temp_derive_SteinhartHart_ABC_from_points profile R T).parameters.SH.A = A ∧
    (temp_derive_SteinhartHart_ABC_from_points profile R T).parameters.SH.B = B ∧
    (temp_derive_SteinhartHart_ABC_from_points profile R T).parameters.SH.C = C := by
  have d10 : Real.log (R 1) - Real.log (R 0) ≠ 0 := sub_ne_zero.mpr (Ne.symm h01)
  have d20 : Real.log (R 2) - Real.log (R 0) ≠ 0 := sub_ne_zero.mpr (Ne.symm h02)
  have d21 : Real.log (R 2) - Real.log (R 1) ≠ 0 := sub_ne_zero.mpr (Ne.symm h12)
  have hC : ((1 / T 2 - 1 / T 0) / (Real.log (R 2) - Real.log (R 0))
        - (1 / T 1 - 1 / T 0) / (Real.log (R 1) - Real.log (R 0)))
        / (Real.log (R 2) - Real.log (R 1))
        * (1 / (Real.log (R 0) + Real.log (R 1) + Real.log (R 2))) = C := by
    rw [hfit 0, hfit 1, hfit 2]
    field_simp
    ring
  have hg1 : (1 / T 1 - 1 / T 0) / (Real.log (R 1) - Real.log (R 0))
      = B + C * (Real.log (R 0) * Real.log (R 0) + Real.log (R 0) * Real.log (R 1)
          + Real.log (R 1) * Real.log (R 1)) := by
    rw [hfit 0, hfit 1]
    field_simp
    ring
  refine ⟨?_, ?_, ?_⟩
  · simp only [temp_derive_SteinhartHart_ABC_from_points]
    rw [hC, hg1, hfit 0]
    ring
  · simp only [temp_derive_SteinhartHart_ABC_from_points]
    rw [hC, hg1]
    ring
  · simp only [temp_derive_SteinhartHart_ABC_from_points]
    rw [hC]

/-- Instance of C8: the points with logarithms `0`, `1`, `2` generated from
`A = B = C = 1`. -/
theorem temp_derive_SteinhartHart_ABC_from_points_exact_witness :
    (∀ i, 0 < fitR i) ∧
    Real.log (fitR 0) ≠ Real.log (fitR 1) ∧
    Real.log (fitR 0) ≠ Real.log (fitR 2) ∧
    Real.log (fitR 1) ≠ Real.log (fitR 2) ∧
    Real.log (fitR 0) + Real.log (fitR 1) + Real.log (fitR 2) ≠ 0 ∧
    (∀ i, fitT i ≠ 0) ∧
    (∀ i, 1 / fitT i = 1 + 1 * Real.log (fitR i) + 1 * Real.log (fitR i) ^ 3) ∧
    (temp_derive_SteinhartHart_ABC_from_points scenarioProfile fitR fitT).parameters.SH.A = 1 ∧
    (temp_derive_SteinhartHart_ABC_from_points scenarioProfile fitR fitT).parameters.SH.B = 1 ∧
    (temp_derive_SteinhartHart_ABC_from_points scenarioProfile fitR fitT).parameters.SH.C = 1 := by
  have l0 : Real.log (fitR 0) = 0 := by simp [fitR]
  have l1 : Real.log (fitR 1) = 1 := by simp [fitR]
  have l2 : Real.log (fitR 2) = 2 := by simp [fitR]
  have hR : ∀ i, 0 < fitR i := by
    intro i
    fin_cases i
    · simp [fitR]
    · simpa [fitR] using Real.exp_pos 1
    · simpa [fitR] using Real.exp_pos 2
  have h01 : Real.log (fitR 0) ≠ Real.log (fitR 1) := by rw [l0, l1]; norm_num
  have h02 : Real.log (fitR 0) ≠ Real.log (fitR 2) := by rw [l0, l2]; norm_num
  have h12 : Real.log (fitR 1) ≠ Real.log (fitR 2) := by rw [l1, l2]; norm_num
  have hsum : Real.log (fitR 0) + Real.log (fitR 1) + Real.log (fitR 2) ≠ 0 := by
    rw [l0, l1, l2]; norm_num
  have hT : ∀ i, fitT i ≠ 0 := by
    intro i
    fin_cases i <;> simp [fitT]
  have hfit : ∀ i, 1 / fitT i = 1 + 1 * Real.log (fitR i) + 1 * Real.log (fitR i) ^ 3 := by
    intro i
    fin_cases i
    · show 1 / fitT 0 = 1 + 1 * Real.log (fitR 0) + 1 * Real.log (fitR 0) ^ 3
      rw [l0]; norm_num [fitT]
    · show 1 / fitT 1 = 1 + 1 * Real.log (fitR 1) + 1 * Real.log (fitR 1) ^ 3
      rw [l1]; norm_num [fitT]
    · show 1 / fitT 2 = 1 + 1 * Real.log (fitR 2) + 1 * Real.log (fitR 2) ^ 3
      rw [l2]; norm_num [fitT]
  exact ⟨hR, h01, h02, h12, hsum, hT, hfit,
    temp_derive_SteinhartHart_ABC_from_points_exact scenarioProfile 1 1 1 fitR fitT
      hR h01 h02 h12 hsum hT hfit⟩

/-- C9: derivation consistency.  For every profile with `Beta != 0`, `T0 != 0`
and `r = R0*exp(-Beta/T0)`, `temp_derive_SteinhartHart_ABC_from_Beta` followed
by `temp_derive_SteinhartHart_Beta_r_from_ABC` sets `C` to exactly `0` and
leaves `Beta` and `r` equal to their original values. -/
theorem temp_derive_Beta_ABC_Beta (profile : TEMPProfile)
    (_hBeta : profile.parameters.SH.Beta ≠ 0) (_hT0 : profile.parameters.SH.T0 ≠ 0)
    (hr : profile.parameters.SH.r
      = profile.parameters.SH.R0
        * Real.exp (-profile.parameters.SH.Beta / profile.parameters.SH.T0)) :
    (temp_derive_SteinhartHart_ABC_from_Beta profile).parameters.SH.C = 0 ∧
    (temp_derive_SteinhartHart_Beta_r_from_ABC
      (temp_derive_SteinhartHart_ABC_from_Beta profile)).parameters.SH.C = 0 ∧
    (temp_derive_SteinhartHart_Beta_r_from_ABC
      (temp_derive_SteinhartHart_ABC_from_Beta profile)).parameters.SH.Beta
        = profile.parameters.SH.Beta ∧
    (temp_derive_SteinhartHart_Beta_r_from_ABC
      (temp_derive_SteinhartHart_ABC_from_Beta profile)).parameters.SH.r
        = profile.parameters.SH.r := by
  refine ⟨rfl, rfl, ?_, ?_⟩
  · simp only [temp_derive_SteinhartHart_Beta_r_from_ABC,
      temp_derive_SteinhartHart_ABC_from_Beta, one_div_one_div]
  · simp only [temp_derive_SteinhartHart_Beta_r_from_ABC,
      temp_derive_SteinhartHart_ABC_from_Beta, one_div_one_div]
    exact hr.symm

/-- Instance of C9 at the scenario profile. -/
theorem temp_derive_Beta_ABC_Beta_witness :
    scenarioProfile.parameters.SH.Beta ≠ 0 ∧ scenarioProfile.parameters.SH.T0 ≠ 0 ∧
    scenarioProfile.parameters.SH.r
      = scenarioProfile.parameters.SH.R0
        * Real.exp (-scenarioProfile.parameters.SH.Beta / scenarioProfile.parameters.SH.T0) ∧
    (temp_derive_SteinhartHart_ABC_from_Beta scenarioProfile).parameters.SH.C = 0 ∧
    (temp_derive_SteinhartHart_Beta_r_from_ABC
      (temp_derive_SteinhartHart_ABC_from_Beta scenarioProfile)).parameters.SH.C = 0 ∧
    (temp_derive_SteinhartHart_Beta_r_from_ABC
      (temp_derive_SteinhartHart_ABC_from_Beta scenarioProfile)).parameters.SH.Beta
        = scenarioProfile.parameters.SH.Beta ∧
    (temp_derive_SteinhartHart_Beta_r_from_ABC
      (temp_derive_SteinhartHart_ABC_from_Beta scenarioProfile)).parameters.SH.r
        = scenarioProfile.parameters.SH.r :=
  ⟨by norm_num [scenarioProfile], by norm_num [scenarioProfile], rfl,
   temp_derive_Beta_ABC_Beta scenarioProfile (by norm_num [scenarioProfile])
     (by norm_num [scenarioProfile]) rfl⟩

/-- C10 (evaluation of the code at the failing input): for the scenario profile
(`Beta = 3950`, `R0 = 10000`, `T0 = 298.15`, `r = R0*exp(-Beta/T0)`), after
`temp_derive_SteinhartHart_ABC_from_Beta`, at the resistance `R = R0 = 10000`
(positive and different from `r`) the A/B/C forward model returns `1/298.15`
Kelvin while the Beta/r forward model returns `298.15` Kelvin. -/
theorem temp_derive_ABC_from_Beta_models_differ :
    (temp_derive_SteinhartHart_ABC_from_Beta scenarioProfile).parameters.SH.r
      = scenarioProfile.parameters.SH.R0
        * Real.exp (-scenarioProfile.parameters.SH.Beta / scenarioProfile.parameters.SH.T0) ∧
    (10000 : ℝ) ≠ (temp_derive_SteinhartHart_ABC_from_Beta scenarioProfile).parameters.SH.r ∧
    temp_calculate_SteinhartHart_ABC
      (temp_derive_SteinhartHart_ABC_from_Beta scenarioProfile) 10000 = 1 / 298.15 ∧
    temp_calculate_SteinhartHart_Beta_r
      (temp_derive_SteinhartHart_ABC_from_Beta scenarioProfile) 10000 = 298.15 ∧
    temp_calculate_SteinhartHart_ABC
      (temp_derive_SteinhartHart_ABC_from_Beta scenarioProfile) 10000
      ≠ temp_calculate_SteinhartHart_Beta_r
        (temp_derive_SteinhartHart_ABC_from_Beta scenarioProfile) 10000 := by
  have hexp : Real.exp (-3950 / 298.15) < 1 := Real.exp_lt_one_iff.mpr (by norm_num)
  have hr : (temp_derive_SteinhartHart_ABC_from_Beta scenarioProfile).parameters.SH.r
      = 10000 * Real.exp (-3950 / 298.15) := rfl
  have hne : (10000 : ℝ)
      ≠ (temp_derive_SteinhartHart_ABC_from_Beta scenarioProfile).parameters.SH.r := by
    rw [hr]
    intro h
    nlinarith
  have hABC : temp_calculate_SteinhartHart_ABC
      (temp_derive_SteinhartHart_ABC_from_Beta scenarioProfile) 10000 = 1 / 298.15 := by
    simp only [temp_calculate_SteinhartHart_ABC, temp_derive_SteinhartHart_ABC_from_Beta,
      scenarioProfile]
    congr 1
    ring
  have hBeta : temp_calculate_SteinhartHart_Beta_r
      (temp_derive_SteinhartHart_ABC_from_Beta scenarioProfile) 10000 = 298.15 := by
    simp only [temp_calculate_SteinhartHart_Beta_r, temp_derive_SteinhartHart_ABC_from_Beta,
      scenarioProfile]
    have e : (10000 : ℝ) / (10000 * Real.exp (-3950 / 298.15))
        = Real.exp (3950 / 298.15) := by
      rw [show (-3950 / 298.15 : ℝ) = -(3950 / 298.15) by ring, Real.exp_neg]
      field_simp
    rw [e, Real.log_exp]
    norm_num
  refine ⟨rfl, hne, hABC, hBeta, ?_⟩
  rw [hABC, hBeta]
  norm_num

/-! ## The named locals are the ones the functions compute with -/

/-- The function `temp_read` passes `temp_read_Vout` to `temp_calculate_R_T`:
its result is the method's temperature at that resistance. -/
theorem temp_read_eq_of_Vout (p : TEMPProfile) (code : uint32_t) :
    temp_read p code =
      (match p.method with
        | TEMPMethod.TEMP_METHOD_CURVE_APPROX =>
          temp_calculate_approximation p (temp_calculate_R_T p (temp_read_Vout p code))
        | TEMPMethod.TEMP_METHOD_STEINHART_HART_ABC =>
          CVT_KELVIN_TO_CELSIUS_F
            (temp_calculate_SteinhartHart_ABC p (temp_calculate_R_T p (temp_read_Vout p code)))
        | TEMPMethod.TEMP_METHOD_STEINHART_HART_BETA_R =>
          CVT_KELVIN_TO_CELSIUS_F
            (temp_calculate_SteinhartHart_Beta_r p
              (temp_calculate_R_T p (temp_read_Vout p code)))) := by
  unfold temp_read temp_read_Vout
  cases p.method <;> rfl

/-- The function `temp_calculate_R_T` divides the local `num` by the local
`den`, and subtracts `R_F` when the thermistor is on top. -/
theorem temp_calculate_R_T_eq_num_den (p : TEMPProfile) (Vout : ℝ) :
    temp_calculate_R_T p Vout =
      (match p.schema with
        | TEMPSchema.TEMP_SCHEMA_R_F_ON_R_T =>
          temp_calculate_R_T_num p Vout / temp_calculate_R_T_den p Vout
        | TEMPSchema.TEMP_SCHEMA_R_T_ON_R_F =>
          temp_calculate_R_T_num p Vout / temp_calculate_R_T_den p Vout - p.R_F) := by
  unfold temp_calculate_R_T temp_calculate_R_T_num temp_calculate_R_T_den
  cases p.schema <;> rfl

/-- The A/B/C branch of `temp_get_adc` returns `expf` of
`temp_get_adc_ABC_exponent`. -/
theorem temp_get_adc_R_T_ABC_eq (p : TEMPProfile) (T : ℝ)
    (hm : p.method = TEMPMethod.TEMP_METHOD_STEINHART_HART_ABC) :
    temp_get_adc_R_T p T = Real.exp (temp_get_adc_ABC_exponent p T) := by
  simp only [temp_get_adc_R_T, hm, temp_get_adc_ABC_exponent, temp_get_adc_ABC_y,
    temp_get_adc_ABC_x, temp_get_adc_ABC_Br3C]

/-! ## Divider: rail safety, inverse stages, range of the code -/

/-- For a code strictly inside `(0, adc_range)` the output voltage passed by
`temp_read` is strictly between `0` and `V`. -/
theorem temp_read_Vout_bounds (p : TEMPProfile) (code : uint32_t)
    (hV : 0 < p.V) (h0 : 0 < (code : ℕ)) (h1 : (code : ℕ) < (p.adc_range : ℕ)) :
    0 < temp_read_Vout p code ∧ temp_read_Vout p code < p.V := by
  have hc : (0 : ℝ) < ((code : ℕ) : ℝ) := by exact_mod_cast h0
  have hcN : ((code : ℕ) : ℝ) < ((p.adc_range : ℕ) : ℝ) := by exact_mod_cast h1
  have hN : (0 : ℝ) < ((p.adc_range : ℕ) : ℝ) := lt_trans hc hcN
  unfold temp_read_Vout
  refine ⟨div_pos (mul_pos hV hc) hN, ?_⟩
  rw [div_lt_iff₀ hN]
  exact mul_lt_mul_of_pos_left hcN hV

/-- The function `temp_calculate_R_T` undoes the divider switch of
`temp_get_adc` on positive resistances. -/
theorem temp_calculate_R_T_get_adc_Vout (p : TEMPProfile) (R_T : ℝ)
    (hV : 0 < p.V) (hRF : 0 < p.R_F) (hR : 0 < R_T) :
    temp_calculate_R_T p (temp_get_adc_Vout p R_T) = R_T := by
  have hs : p.R_F + R_T ≠ 0 := by linarith
  have hV0 : p.V ≠ 0 := hV.ne.symm
  have hRF0 : p.R_F ≠ 0 := hRF.ne.symm
  unfold temp_calculate_R_T temp_get_adc_Vout
  cases p.schema
  · simp only
    have e : p.V - p.V * R_T / (p.R_F + R_T) = p.V * p.R_F / (p.R_F + R_T) := by
      field_simp
      ring
    rw [e]
    field_simp
    ring
  · simp only
    field_simp

/-- C16: the divider stage of `temp_get_adc` and `temp_calculate_R_T` are mutual
inverses for each schema.  For `V > 0`, `R_F > 0` and one profile (so the same
schema) on both sides: every `R_T > 0` mapped to `Vout` by the formula of
`temp_get_adc` is recovered by `temp_calculate_R_T`, and every `Vout` with
`0 < Vout < V` mapped to `R_T` by `temp_calculate_R_T` is mapped back to that
`Vout`. -/
theorem temp_divider_mutual_inverse (p : TEMPProfile) (hV : 0 < p.V) (hRF : 0 < p.R_F) :
    (∀ R_T : ℝ, 0 < R_T → temp_calculate_R_T p (temp_get_adc_Vout p R_T) = R_T) ∧
    (∀ Vout : ℝ, 0 < Vout → Vout < p.V →
      temp_get_adc_Vout p (temp_calculate_R_T p Vout) = Vout) :=
  ⟨fun R_T hR => temp_calculate_R_T_get_adc_Vout p R_T hV hRF hR,
   fun Vout h0 h1 => temp_get_adc_Vout_calculate_R_T p Vout hRF h0 h1⟩

/-- Instance of C16 at the scenario profile. -/
theorem temp_divider_mutual_inverse_witness :
    0 < scenarioProfile.V ∧ 0 < scenarioProfile.R_F ∧
    ((∀ R_T : ℝ, 0 < R_T →
      temp_calculate_R_T scenarioProfile (temp_get_adc_Vout scenarioProfile R_T) = R_T) ∧
    (∀ Vout : ℝ, 0 < Vout → Vout < scenarioProfile.V →
      temp_get_adc_Vout scenarioProfile (temp_calculate_R_T scenarioProfile Vout) = Vout)) :=
  ⟨by norm_num [scenarioProfile], by norm_num [scenarioProfile],
   temp_divider_mutual_inverse scenarioProfile (by norm_num [scenarioProfile])
     (by norm_num [scenarioProfile])⟩

/-- For `C != 0` the local `Br3C` is `1/3`. -/
theorem temp_get_adc_ABC_Br3C_eq (p : TEMPProfile) (hC : p.parameters.SH.C ≠ 0) :
    temp_get_adc_ABC_Br3C p = 1 / 3 := by
  unfold temp_get_adc_ABC_Br3C
  field_simp
  ring

/-- For `C != 0` the local `y` is the square root of `1/27 + x*x/4`. -/
theorem temp_get_adc_ABC_y_eq (p : TEMPProfile) (T : ℝ) (hC : p.parameters.SH.C ≠ 0) :
    temp_get_adc_ABC_y p T
      = Real.sqrt (1 / 27 + (temp_get_adc_ABC_x p T * temp_get_adc_ABC_x p T / 4)) := by
  have h : Real.rpow (temp_get_adc_ABC_Br3C p) 3 = 1 / 27 := by
    rw [temp_get_adc_ABC_Br3C_eq p hC, Real.rpow_eq_pow]
    norm_num
  simp only [temp_get_adc_ABC_y, h]

/-- For `C != 0` both bases of the cube roots are positive and the exponent is a
root of `t^3 + t + x`. -/
theorem temp_get_adc_ABC_exponent_root (p : TEMPProfile) (T : ℝ)
    (hC : p.parameters.SH.C ≠ 0) :
    0 < temp_get_adc_ABC_y p T - temp_get_adc_ABC_x p T / 2 ∧
    0 < temp_get_adc_ABC_y p T + temp_get_adc_ABC_x p T / 2 ∧
    temp_get_adc_ABC_exponent p T ^ 3 + temp_get_adc_ABC_exponent p T
      + temp_get_adc_ABC_x p T = 0 := by
  have h := cardano_depressed_root (temp_get_adc_ABC_x p T)
  simp only [temp_get_adc_ABC_exponent]
  rw [temp_get_adc_ABC_y_eq p T hC]
  exact h

/-- Over exact reals: what the A/B/C inverse solves.  For every profile with
`C != 0` and every `K = T + 273.15 != 0`, with `x = (A - 1/K)/C`: the
coefficient `C/(3*C)` is `1/3`, `y = sqrt((1/3)^3 + x^2/4)`, the resistance computed by `temp_get_adc`
is `exp(t)` with `t = (y - x/2)^(1/3) - (y + x/2)^(1/3)`, and `t^3 + t + x = 0`,
that is `C*t^3 + C*t + (A - 1/K) = 0`; the resistance is the same for every
value of `B`. -/
theorem temp_get_adc_ABC_solves (p : TEMPProfile) (T : ℝ)
    (hm : p.method = TEMPMethod.TEMP_METHOD_STEINHART_HART_ABC)
    (hC : p.parameters.SH.C ≠ 0) (_hK : CVT_CELSIUS_TO_KELVIN_F T ≠ 0) :
    CVT_CELSIUS_TO_KELVIN_F T = T + 273.15 ∧
    temp_get_adc_ABC_x p T
      = (p.parameters.SH.A - 1 / CVT_CELSIUS_TO_KELVIN_F T) / p.parameters.SH.C ∧
    temp_get_adc_ABC_Br3C p = 1 / 3 ∧
    temp_get_adc_ABC_y p T
      = Real.sqrt ((1 / 3) ^ 3 + temp_get_adc_ABC_x p T ^ 2 / 4) ∧
    temp_get_adc_ABC_exponent p T
      = Real.rpow (temp_get_adc_ABC_y p T - temp_get_adc_ABC_x p T / 2) (1 / 3)
        - Real.rpow (temp_get_adc_ABC_y p T + temp_get_adc_ABC_x p T / 2) (1 / 3) ∧
    temp_get_adc_R_T p T = Real.exp (temp_get_adc_ABC_exponent p T) ∧
    temp_get_adc_ABC_exponent p T ^ 3 + temp_get_adc_ABC_exponent p T
      + temp_get_adc_ABC_x p T = 0 ∧
    p.parameters.SH.C * temp_get_adc_ABC_exponent p T ^ 3
      + p.parameters.SH.C * temp_get_adc_ABC_exponent p T
      + (p.parameters.SH.A - 1 / CVT_CELSIUS_TO_KELVIN_F T) = 0 ∧
    ∀ B : ℝ,
      temp_get_adc_R_T
        { p with parameters := { p.parameters with SH := { p.parameters.SH with B := B } } } T
        = temp_get_adc_R_T p T := by
  have hx : temp_get_adc_ABC_x p T
      = (p.parameters.SH.A - 1 / CVT_CELSIUS_TO_KELVIN_F T) / p.parameters.SH.C := by
    simp only [temp_get_adc_ABC_x]
    ring
  have hroot := (temp_get_adc_ABC_exponent_root p T hC).2.2
  refine ⟨rfl, hx, temp_get_adc_ABC_Br3C_eq p hC, ?_, rfl, temp_get_adc_R_T_ABC_eq p T hm,
    hroot, ?_, ?_⟩
  · rw [temp_get_adc_ABC_y_eq p T hC]
    congr 1
    ring
  · have hCx : p.parameters.SH.C * temp_get_adc_ABC_x p T
        = p.parameters.SH.A - 1 / CVT_CELSIUS_TO_KELVIN_F T := by
      rw [hx]
      field_simp
      ring
    linear_combination p.parameters.SH.C * hroot - hCx
  · intro B
    simp only [temp_get_adc_R_T, hm]

/-- Instance over exact reals: the A/B/C profile at 25 degrees Celsius solves
the depressed cubic. -/
theorem temp_get_adc_ABC_solves_witness :
    abcProfile.method = TEMPMethod.TEMP_METHOD_STEINHART_HART_ABC ∧
    abcProfile.parameters.SH.C ≠ 0 ∧ CVT_CELSIUS_TO_KELVIN_F 25 ≠ 0 ∧
    temp_get_adc_ABC_Br3C abcProfile = 1 / 3 ∧
    temp_get_adc_R_T abcProfile 25 = Real.exp (temp_get_adc_ABC_exponent abcProfile 25) ∧
    temp_get_adc_ABC_exponent abcProfile 25 ^ 3 + temp_get_adc_ABC_exponent abcProfile 25
      + temp_get_adc_ABC_x abcProfile 25 = 0 := by
  have hC : abcProfile.parameters.SH.C ≠ 0 := by norm_num [abcProfile]
  have hK : CVT_CELSIUS_TO_KELVIN_F 25 ≠ 0 := by norm_num [CVT_CELSIUS_TO_KELVIN_F]
  have h := temp_get_adc_ABC_solves abcProfile 25 rfl hC hK
  exact ⟨rfl, hC, hK, h.2.2.1, h.2.2.2.2.2.1, h.2.2.2.2.2.2.1⟩

/-- Over exact reals: the cube roots in the A/B/C inverse are never taken of a
non-positive number.  For every real `x`, with `y = sqrt((1/3)^3 + x^2/4)`, both `y - x/2`
and `y + x/2` are positive; for every profile with `C != 0` the locals `x` and
`y` of `temp_get_adc` are of that form, so both `powf` calls have a strictly
positive base, and the computed `R_T` is strictly positive. -/
theorem temp_get_adc_ABC_bases_pos (p : TEMPProfile) (T : ℝ)
    (hm : p.method = TEMPMethod.TEMP_METHOD_STEINHART_HART_ABC)
    (hC : p.parameters.SH.C ≠ 0) :
    (∀ x : ℝ, 0 < Real.sqrt ((1 / 3) ^ 3 + x ^ 2 / 4) - x / 2 ∧
      0 < Real.sqrt ((1 / 3) ^ 3 + x ^ 2 / 4) + x / 2) ∧
    temp_get_adc_ABC_x p T
      = (p.parameters.SH.A - 1 / CVT_CELSIUS_TO_KELVIN_F T) / p.parameters.SH.C ∧
    temp_get_adc_ABC_y p T
      = Real.sqrt ((1 / 3) ^ 3 + temp_get_adc_ABC_x p T ^ 2 / 4) ∧
    0 < temp_get_adc_ABC_y p T - temp_get_adc_ABC_x p T / 2 ∧
    0 < temp_get_adc_ABC_y p T + temp_get_adc_ABC_x p T / 2 ∧
    temp_get_adc_R_T p T
      = Real.exp (Real.rpow (temp_get_adc_ABC_y p T - temp_get_adc_ABC_x p T / 2) (1 / 3)
        - Real.rpow (temp_get_adc_ABC_y p T + temp_get_adc_ABC_x p T / 2) (1 / 3)) ∧
    0 < temp_get_adc_R_T p T := by
  have hform : ∀ x : ℝ, ((1 : ℝ) / 3) ^ 3 + x ^ 2 / 4 = 1 / 27 + (x * x / 4) := by
    intro x
    ring
  have hroot := temp_get_adc_ABC_exponent_root p T hC
  refine ⟨?_, ?_, ?_, hroot.1, hroot.2.1, temp_get_adc_R_T_ABC_eq p T hm, ?_⟩
  · intro x
    rw [hform x]
    exact ⟨(cardano_depressed_root x).1, (cardano_depressed_root x).2.1⟩
  · simp only [temp_get_adc_ABC_x]
    ring
  · rw [temp_get_adc_ABC_y_eq p T hC, hform]
  · rw [temp_get_adc_R_T_ABC_eq p T hm]
    exact Real.exp_pos _

/-- Instance over exact reals: the A/B/C profile at 25 degrees Celsius has
positive bases. -/
theorem temp_get_adc_ABC_bases_pos_witness :
    abcProfile.method = TEMPMethod.TEMP_METHOD_STEINHART_HART_ABC ∧
    abcProfile.parameters.SH.C ≠ 0 ∧
    0 < temp_get_adc_ABC_y abcProfile 25 - temp_get_adc_ABC_x abcProfile 25 / 2 ∧
    0 < temp_get_adc_ABC_y abcProfile 25 + temp_get_adc_ABC_x abcProfile 25 / 2 ∧
    0 < temp_get_adc_R_T abcProfile 25 := by
  have hC : abcProfile.parameters.SH.C ≠ 0 := by norm_num [abcProfile]
  have h := temp_get_adc_ABC_bases_pos abcProfile 25 rfl hC
  exact ⟨rfl, hC, h.2.2.2.1, h.2.2.2.2.1, h.2.2.2.2.2.2⟩

/-! ## Monotonicity -/

/-- The output voltage passed by `temp_read` increases strictly with the
code. -/
theorem temp_read_Vout_lt (p : TEMPProfile) (c1 c2 : uint32_t)
    (hV : 0 < p.V) (hN : 0 < (p.adc_range : ℕ)) (h12 : (c1 : ℕ) < (c2 : ℕ)) :
    temp_read_Vout p c1 < temp_read_Vout p c2 := by
  have hNr : (0 : ℝ) < ((p.adc_range : ℕ) : ℝ) := by exact_mod_cast hN
  have hc : ((c1 : ℕ) : ℝ) < ((c2 : ℕ) : ℝ) := by exact_mod_cast h12
  unfold temp_read_Vout
  exact div_lt_div_of_pos_right (mul_lt_mul_of_pos_left hc hV) hNr

/-- With the fixed resistor on top the divider resistance increases strictly
with the output voltage on `(0, V)`. -/
theorem temp_calculate_R_T_lt_fixed_on_top (p : TEMPProfile) (v1 v2 : ℝ)
    (hs : p.schema = TEMPSchema.TEMP_SCHEMA_R_F_ON_R_T)
    (hRF : 0 < p.R_F) (h0 : 0 < v1) (h12 : v1 < v2) (h2 : v2 < p.V) :
    temp_calculate_R_T p v1 < temp_calculate_R_T p v2 := by
  simp only [temp_calculate_R_T, hs]
  have d1 : 0 < p.V - v1 := by linarith
  have d2 : 0 < p.V - v2 := by linarith
  rw [div_lt_div_iff₀ d1 d2]
  have hV : 0 < p.V := by linarith
  have h : v1 * (p.V - v2) < v2 * (p.V - v1) := by nlinarith
  nlinarith

/-- With the thermistor on top the divider resistance decreases strictly as the
output voltage increases on `(0, V)`. -/
theorem temp_calculate_R_T_lt_thermistor_on_top (p : TEMPProfile) (v1 v2 : ℝ)
    (hs : p.schema = TEMPSchema.TEMP_SCHEMA_R_T_ON_R_F)
    (hV : 0 < p.V) (hRF : 0 < p.R_F) (h0 : 0 < v1) (h12 : v1 < v2) :
    temp_calculate_R_T p v2 < temp_calculate_R_T p v1 := by
  simp only [temp_calculate_R_T, hs]
  have h : p.V * p.R_F / v2 < p.V * p.R_F / v1 :=
    div_lt_div_of_pos_left (mul_pos hV hRF) h0 h12
  linarith

/-- For `A < 0` the log-linear temperature decreases strictly as the resistance
increases. -/
theorem temp_calculate_approximation_lt (p : TEMPProfile) (R1 R2 : ℝ)
    (hA : p.parameters.approx.A < 0) (h0 : 0 < R1) (h12 : R1 < R2) :
    temp_calculate_approximation p R2 < temp_calculate_approximation p R1 := by
  simp only [temp_calculate_approximation]
  have hlog : Real.log R1 < Real.log R2 := Real.log_lt_log h0 h12
  have h : (Real.log R2 - p.parameters.approx.B) / p.parameters.approx.A
      < (Real.log R1 - p.parameters.approx.B) / p.parameters.approx.A :=
    div_lt_div_of_neg_of_lt hA (by linarith)
  linarith

/-- For `Beta > 0` the Beta/r temperature decreases strictly as the resistance
increases above `r > 0`. -/
theorem temp_calculate_SteinhartHart_Beta_r_lt (p : TEMPProfile) (R1 R2 : ℝ)
    (hB : 0 < p.parameters.SH.Beta) (hr : 0 < p.parameters.SH.r)
    (h1 : p.parameters.SH.r < R1) (h12 : R1 < R2) :
    temp_calculate_SteinhartHart_Beta_r p R2 < temp_calculate_SteinhartHart_Beta_r p R1 := by
  simp only [temp_calculate_SteinhartHart_Beta_r]
  have hq1 : 1 < R1 / p.parameters.SH.r := (one_lt_div hr).mpr h1
  have hq12 : R1 / p.parameters.SH.r < R2 / p.parameters.SH.r :=
    div_lt_div_of_pos_right h12 hr
  have hl1 : 0 < Real.log (R1 / p.parameters.SH.r) := Real.log_pos hq1
  have hl12 : Real.log (R1 / p.parameters.SH.r) < Real.log (R2 / p.parameters.SH.r) :=
    Real.log_lt_log (by linarith) hq12
  exact div_lt_div_of_pos_left hB hl1 hl12

/-- Under the hypotheses of the monotonicity property, `temp_read` decreases
strictly as the divider resistance increases. -/
theorem temp_read_lt_of_R_T_lt (p : TEMPProfile) (c1 c2 : uint32_t)
    (hm : (p.method = TEMPMethod.TEMP_METHOD_CURVE_APPROX ∧ p.parameters.approx.A < 0) ∨
      (p.method = TEMPMethod.TEMP_METHOD_STEINHART_HART_BETA_R ∧
        0 < p.parameters.SH.Beta ∧ 0 < p.parameters.SH.r ∧
        p.parameters.SH.r < temp_calculate_R_T p (temp_read_Vout p c1)))
    (h0 : 0 < temp_calculate_R_T p (temp_read_Vout p c1))
    (h12 : temp_calculate_R_T p (temp_read_Vout p c1)
      < temp_calculate_R_T p (temp_read_Vout p c2)) :
    temp_read p c2 < temp_read p c1 := by
  rw [temp_read_eq_of_Vout p c1, temp_read_eq_of_Vout p c2]
  rcases hm with ⟨hm, hA⟩ | ⟨hm, hB, hr, h1⟩
  · simp only [hm]
    exact temp_calculate_approximation_lt p _ _ hA h0 h12
  · simp only [hm, CVT_KELVIN_TO_CELSIUS_F]
    have h := temp_calculate_SteinhartHart_Beta_r_lt p _ _ hB hr h1 h12
    linarith

/-- C11: monotonicity of `temp_read` for a negative-temperature-coefficient
thermistor over exact reals.  For `V > 0`, `R_F > 0`, `adc_range > 0`, the
log-linear method with `A < 0` or the Beta/r method with `Beta > 0`, `r > 0`
(at codes whose thermistor resistance exceeds `r`), and codes `c1 < c2`
strictly inside `(0, adc_range)`: `temp_read c1 > temp_read c2` with the fixed
resistor on top and `temp_read c1 < temp_read c2` with the thermistor on top. -/
theorem temp_read_monotone (p : TEMPProfile) (c1 c2 : uint32_t)
    (hV : 0 < p.V) (hRF : 0 < p.R_F) (hN : 0 < (p.adc_range : ℕ))
    (hm : (p.method = TEMPMethod.TEMP_METHOD_CURVE_APPROX ∧ p.parameters.approx.A < 0) ∨
      (p.method = TEMPMethod.TEMP_METHOD_STEINHART_HART_BETA_R ∧
        0 < p.parameters.SH.Beta ∧ 0 < p.parameters.SH.r ∧
        p.parameters.SH.r < temp_calculate_R_T p (temp_read_Vout p c1) ∧
        p.parameters.SH.r < temp_calculate_R_T p (temp_read_Vout p c2)))
    (h0 : 0 < (c1 : ℕ)) (h12 : (c1 : ℕ) < (c2 : ℕ)) (h2 : (c2 : ℕ) < (p.adc_range : ℕ)) :
    (p.schema = TEMPSchema.TEMP_SCHEMA_R_F_ON_R_T → temp_read p c1 > temp_read p c2) ∧
    (p.schema = TEMPSchema.TEMP_SCHEMA_R_T_ON_R_F → temp_read p c1 < temp_read p c2) := by
  obtain ⟨a0, a1⟩ := temp_read_Vout_bounds p c1 hV h0 (lt_trans h12 h2)
  obtain ⟨b0, b1⟩ := temp_read_Vout_bounds p c2 hV (lt_trans h0 h12) h2
  have hv := temp_read_Vout_lt p c1 c2 hV hN h12
  have hR1 := temp_calculate_R_T_pos p _ hRF a0 a1
  have hR2 := temp_calculate_R_T_pos p _ hRF b0 b1
  constructor
  · intro hs
    have hR := temp_calculate_R_T_lt_fixed_on_top p _ _ hs hRF a0 hv b1
    refine temp_read_lt_of_R_T_lt p c1 c2 ?_ hR1 hR
    rcases hm with h | ⟨hm, hB, hr, h1, _⟩
    · exact Or.inl h
    · exact Or.inr ⟨hm, hB, hr, h1⟩
  · intro hs
    have hR := temp_calculate_R_T_lt_thermistor_on_top p _ _ hs hV hRF a0 hv
    refine temp_read_lt_of_R_T_lt p c2 c1 ?_ hR2 hR
    rcases hm with h | ⟨hm, hB, hr, _, h2⟩
    · exact Or.inl h
    · exact Or.inr ⟨hm, hB, hr, h2⟩

/-- Instance of C11: the scenario profile (Beta/r method, thermistor on top) at
quarter scale and mid scale, where the thermistor resistances `30000` and
`10000` exceed `r`. -/
theorem temp_read_monotone_witness :
    0 < scenarioProfile.V ∧ 0 < scenarioProfile.R_F ∧
    0 < (scenarioProfile.adc_range : ℕ) ∧
    ((scenarioProfile.method = TEMPMethod.TEMP_METHOD_CURVE_APPROX ∧
        scenarioProfile.parameters.approx.A < 0) ∨
      (scenarioProfile.method = TEMPMethod.TEMP_METHOD_STEINHART_HART_BETA_R ∧
        0 < scenarioProfile.parameters.SH.Beta ∧ 0 < scenarioProfile.parameters.SH.r ∧
        scenarioProfile.parameters.SH.r
          < temp_calculate_R_T scenarioProfile (temp_read_Vout scenarioProfile quarterScaleCode) ∧
        scenarioProfile.parameters.SH.r
          < temp_calculate_R_T scenarioProfile (temp_read_Vout scenarioProfile midScaleCode))) ∧
    0 < (quarterScaleCode : ℕ) ∧ (quarterScaleCode : ℕ) < (midScaleCode : ℕ) ∧
    (midScaleCode : ℕ) < (scenarioProfile.adc_range : ℕ) ∧
    (scenarioProfile.schema = TEMPSchema.TEMP_SCHEMA_R_F_ON_R_T →
      temp_read scenarioProfile quarterScaleCode > temp_read scenarioProfile midScaleCode) ∧
    (scenarioProfile.schema = TEMPSchema.TEMP_SCHEMA_R_T_ON_R_F →
      temp_read scenarioProfile quarterScaleCode < temp_read scenarioProfile midScaleCode) := by
  have hV : 0 < scenarioProfile.V := by norm_num [scenarioProfile]
  have hRF : 0 < scenarioProfile.R_F := by norm_num [scenarioProfile]
  have hN : 0 < (scenarioProfile.adc_range : ℕ) := by norm_num [scenarioProfile]
  have h0 : 0 < (quarterScaleCode : ℕ) := by norm_num [quarterScaleCode]
  have h12 : (quarterScaleCode : ℕ) < (midScaleCode : ℕ) := by
    norm_num [quarterScaleCode, midScaleCode]
  have h2 : (midScaleCode : ℕ) < (scenarioProfile.adc_range : ℕ) := by
    norm_num [midScaleCode, scenarioProfile]
  have hexp : Real.exp (-3950 / 298.15) < 1 := Real.exp_lt_one_iff.mpr (by norm_num)
  have hexp0 : 0 < Real.exp (-3950 / 298.15) := Real.exp_pos _
  have hr : scenarioProfile.parameters.SH.r = 10000 * Real.exp (-3950 / 298.15) := rfl
  have e1 : temp_calculate_R_T scenarioProfile
      (temp_read_Vout scenarioProfile quarterScaleCode) = 30000 := by
    norm_num [temp_calculate_R_T, temp_read_Vout, scenarioProfile, quarterScaleCode]
  have e2 : temp_calculate_R_T scenarioProfile
      (temp_read_Vout scenarioProfile midScaleCode) = 10000 := by
    norm_num [temp_calculate_R_T, temp_read_Vout, scenarioProfile, midScaleCode]
  have hm : (scenarioProfile.method = TEMPMethod.TEMP_METHOD_CURVE_APPROX ∧
        scenarioProfile.parameters.approx.A < 0) ∨
      (scenarioProfile.method = TEMPMethod.TEMP_METHOD_STEINHART_HART_BETA_R ∧
        0 < scenarioProfile.parameters.SH.Beta ∧ 0 < scenarioProfile.parameters.SH.r ∧
        scenarioProfile.parameters.SH.r
          < temp_calculate_R_T scenarioProfile (temp_read_Vout scenarioProfile quarterScaleCode) ∧
        scenarioProfile.parameters.SH.r
          < temp_calculate_R_T scenarioProfile (temp_read_Vout scenarioProfile midScaleCode)) := by
    refine Or.inr ⟨rfl, by norm_num [scenarioProfile], ?_, ?_, ?_⟩
    · rw [hr]; positivity
    · rw [hr, e1]; linarith
    · rw [hr, e2]; linarith
  have h := temp_read_monotone scenarioProfile quarterScaleCode midScaleCode hV hRF hN hm h0 h12 h2
  exact ⟨hV, hRF, hN, hm, h0, h12, h2, h.1, h.2⟩

/-! ## Scenario -/

/-- Over exact reals: scenario round trip at 25 degrees Celsius.  For the
profile `V = 3.3`, `R_F = 10000`, thermistor on top, Beta/r method with
`Beta = 3950` and `r = 10000*exp(-3950/298.15)`, and every positive even
`adc_range`: `temp_get_adc 25` returns `adc_range/2`, and `temp_read` of that
code lies within `0.01` of `25`. -/
theorem temp_scenario_round_trip_25 (p : TEMPProfile)
    (hV : p.V = 3.3) (hRF : p.R_F = 10000)
    (hs : p.schema = TEMPSchema.TEMP_SCHEMA_R_T_ON_R_F)
    (hm : p.method = TEMPMethod.TEMP_METHOD_STEINHART_HART_BETA_R)
    (hB : p.parameters.SH.Beta = 3950)
    (hr : p.parameters.SH.r = 10000 * Real.exp (-3950 / 298.15))
    (hN : 0 < (p.adc_range : ℕ)) (he : Even (p.adc_range : ℕ)) :
    ∃ c : uint32_t, temp_get_adc p 25 = some (c : ℕ) ∧
      (c : ℕ) = (p.adc_range : ℕ) / 2 ∧
      |temp_read p c - 25| ≤ 0.01 := by
  obtain ⟨k, hk⟩ := he
  have hkpos : 0 < k := by omega
  have hklt : k < 4294967296 := by
    have := p.adc_range.isLt
    omega
  have hkr : (0 : ℝ) < (k : ℝ) := by exact_mod_cast hkpos
  have hNr : ((p.adc_range : ℕ) : ℝ) = 2 * (k : ℝ) := by
    rw [hk]
    push_cast
    ring
  have hRT : temp_get_adc_R_T p 25 = 10000 := by
    simp only [temp_get_adc_R_T, hm, CVT_CELSIUS_TO_KELVIN_F, hB, hr]
    rw [mul_assoc, ← Real.exp_add]
    norm_num
  refine ⟨⟨k, hklt⟩, ?_, ?_, ?_⟩
  · have hscaled : (3.3 * 10000 / (10000 + 10000) * (2 * (k : ℝ))) / 3.3 = (k : ℝ) := by
      field_simp
      ring
    unfold temp_get_adc
    simp only [hRT, temp_get_adc_Vout, hs, hV, hRF, hNr, hscaled]
    rw [float_to_uint32_of_nonneg _ hkr.le (by exact_mod_cast hklt), Nat.floor_natCast]
  · show k = (p.adc_range : ℕ) / 2
    omega
  · have hVout : temp_read_Vout p ⟨k, hklt⟩ = 3.3 / 2 := by
      simp only [temp_read_Vout, hV, hNr]
      field_simp
      ring
    have hR : temp_calculate_R_T p (3.3 / 2) = 10000 := by
      simp only [temp_calculate_R_T, hs, hV, hRF]
      norm_num
    have hq : (10000 : ℝ) / (10000 * Real.exp (-3950 / 298.15))
        = Real.exp (3950 / 298.15) := by
      rw [show (-3950 / 298.15 : ℝ) = -(3950 / 298.15) by ring, Real.exp_neg]
      field_simp
    have hT : temp_read p ⟨k, hklt⟩ = 25 := by
      rw [temp_read_eq_of_Vout]
      simp only [hm, hVout, hR, temp_calculate_SteinhartHart_Beta_r, CVT_KELVIN_TO_CELSIUS_F,
        hB, hr, hq, Real.log_exp]
      norm_num
    rw [hT]
    norm_num

/-- Instance over exact reals: the scenario profile with its 12-bit
converter. -/
theorem temp_scenario_round_trip_25_witness :
    scenarioProfile.V = 3.3 ∧ scenarioProfile.R_F = 10000 ∧
    scenarioProfile.schema = TEMPSchema.TEMP_SCHEMA_R_T_ON_R_F ∧
    scenarioProfile.method = TEMPMethod.TEMP_METHOD_STEINHART_HART_BETA_R ∧
    scenarioProfile.parameters.SH.Beta = 3950 ∧
    scenarioProfile.parameters.SH.r = 10000 * Real.exp (-3950 / 298.15) ∧
    0 < (scenarioProfile.adc_range : ℕ) ∧ Even (scenarioProfile.adc_range : ℕ) ∧
    ∃ c : uint32_t, temp_get_adc scenarioProfile 25 = some (c : ℕ) ∧
      (c : ℕ) = (scenarioProfile.adc_range : ℕ) / 2 ∧
      |temp_read scenarioProfile c - 25| ≤ 0.01 :=
  ⟨rfl, rfl, rfl, rfl, rfl, rfl, by norm_num [scenarioProfile],
   ⟨2048, by norm_num [scenarioProfile]⟩,
   temp_scenario_round_trip_25 scenarioProfile rfl rfl rfl rfl rfl rfl
     (by norm_num [scenarioProfile]) ⟨2048, by norm_num [scenarioProfile]⟩⟩

/-! ## Scenario reference resistance -/

/-- Rational bounds on `exp 13`, from the nine-digit bounds on `exp 1`. -/
theorem exp_13_bounds : (442411 : ℝ) < Real.exp 13 ∧ Real.exp 13 < 442415 := by
  have e1 : Real.exp 13 = Real.exp 1 ^ 13 := by
    rw [← Real.exp_nat_mul]
    norm_num
  have hlo : (2.718281 : ℝ) < Real.exp 1 := lt_trans (by norm_num) Real.exp_one_gt_d9
  have hhi : Real.exp 1 < (2.718282 : ℝ) := lt_trans Real.exp_one_lt_d9 (by norm_num)
  rw [e1]
  constructor
  · calc (442411 : ℝ) < (2.718281 : ℝ) ^ 13 := by norm_num
      _ < Real.exp 1 ^ 13 := pow_lt_pow_left₀ hlo (by norm_num) (by norm_num)
  · calc Real.exp 1 ^ 13 < (2.718282 : ℝ) ^ 13 :=
        pow_lt_pow_left₀ hhi (Real.exp_pos 1).le (by norm_num)
      _ < 442415 := by norm_num

/-- Rational bounds on `exp (1481/5963)`, from the Taylor polynomial. -/
theorem exp_1481_5963_bounds :
    (1.2792 : ℝ) < Real.exp (1481 / 5963) ∧ Real.exp (1481 / 5963) < 1.282 := by
  constructor
  · have h := Real.quadratic_le_exp_of_nonneg (show (0 : ℝ) ≤ 1481 / 5963 by norm_num)
    refine lt_of_lt_of_le ?_ h
    norm_num
  · have h := Real.exp_bound' (show (0 : ℝ) ≤ 1481 / 5963 by norm_num)
      (show (1481 / 5963 : ℝ) ≤ 1 by norm_num) (show 0 < 4 by norm_num)
    refine lt_of_le_of_lt h ?_
    simp only [Finset.sum_range_succ, Finset.sum_range_zero, Nat.factorial]
    norm_num

/-- The factor `exp(-3950/298.15)` of the scenario lies between `1.76e-6` and
`1.77e-6`; the exponent is `-(13 + 1481/5963)`. -/
theorem exp_scenario_bounds :
    (0.00000176 : ℝ) < Real.exp (-3950 / 298.15) ∧
    Real.exp (-3950 / 298.15) < 0.00000177 := by
  have hx : (-3950 / 298.15 : ℝ) = -(13 + 1481 / 5963) := by norm_num
  obtain ⟨a1, a2⟩ := exp_13_bounds
  obtain ⟨b1, b2⟩ := exp_1481_5963_bounds
  have hpos : 0 < Real.exp 13 * Real.exp (1481 / 5963) := by positivity
  have hlo : (564972 : ℝ) < Real.exp 13 * Real.exp (1481 / 5963) := by nlinarith
  have hhi : Real.exp 13 * Real.exp (1481 / 5963) < 568181 := by nlinarith
  rw [hx, Real.exp_neg, Real.exp_add]
  constructor
  · rw [lt_inv_comm₀ (by norm_num) hpos]
    exact lt_trans hhi (by norm_num)
  · rw [inv_lt_comm₀ hpos (by norm_num)]
    exact lt_trans (by norm_num) hlo

/-- For `B = 1/3950`, `R0 = 10000`, `T0 = 298.15` the derivation stores
`Beta = 3950` and `r = 10000*exp(-3950/298.15)`. -/
theorem temp_derive_SteinhartHart_Beta_r_from_ABC_scenario (profile : TEMPProfile)
    (hB : profile.parameters.SH.B = 1 / 3950) (hR0 : profile.parameters.SH.R0 = 10000)
    (hT0 : profile.parameters.SH.T0 = 298.15) :
    (temp_derive_SteinhartHart_Beta_r_from_ABC profile).parameters.SH.Beta = 3950 ∧
    (temp_derive_SteinhartHart_Beta_r_from_ABC profile).parameters.SH.r
      = 10000 * Real.exp (-3950 / 298.15) := by
  constructor
  · simp only [temp_derive_SteinhartHart_Beta_r_from_ABC, hB, one_div_one_div]
  · simp only [temp_derive_SteinhartHart_Beta_r_from_ABC, hB, hR0, hT0, one_div_one_div]

/-- C12 (the claim as stated fails): for the profile with `B = 1/3950`,
`R0 = 10000`, `T0 = 298.15`, the reference resistance stored by
`temp_derive_SteinhartHart_Beta_r_from_ABC` is not within `0.005` of `26.11`. -/
theorem scenario_reference_resistance_not_26_11 :
    scenarioABCProfile.parameters.SH.B = 1 / 3950 ∧
    scenarioABCProfile.parameters.SH.R0 = 10000 ∧
    scenarioABCProfile.parameters.SH.T0 = 298.15 ∧
    ¬ ((temp_derive_SteinhartHart_Beta_r_from_ABC scenarioABCProfile).parameters.SH.Beta = 3950 ∧
      (temp_derive_SteinhartHart_Beta_r_from_ABC scenarioABCProfile).parameters.SH.r
        = 10000 * Real.exp (-3950 / 298.15) ∧
      |(temp_derive_SteinhartHart_Beta_r_from_ABC scenarioABCProfile).parameters.SH.r - 26.11|
        ≤ 0.005) := by
  refine ⟨rfl, rfl, rfl, ?_⟩
  rintro ⟨-, hr, habs⟩
  rw [hr] at habs
  have h := (abs_le.mp habs).1
  have hexp := exp_scenario_bounds.2
  linarith

/-- C12 (amended): for every profile with `B = 1/3950`, `R0 = 10000` and
`T0 = 298.15`, `temp_derive_SteinhartHart_Beta_r_from_ABC` stores `Beta = 3950`
and `r = 10000*exp(-3950/298.15)`, and that value of `r` is `0.02` to two
decimal places (`|r - 0.02| <= 0.005`); it lies between `0.0176` and
`0.0177`. -/
theorem temp_derive_Beta_r_scenario (profile : TEMPProfile)
    (hB : profile.parameters.SH.B = 1 / 3950) (hR0 : profile.parameters.SH.R0 = 10000)
    (hT0 : profile.parameters.SH.T0 = 298.15) :
    (temp_derive_SteinhartHart_Beta_r_from_ABC profile).parameters.SH.Beta = 3950 ∧
    (temp_derive_SteinhartHart_Beta_r_from_ABC profile).parameters.SH.r
      = 10000 * Real.exp (-3950 / 298.15) ∧
    |(temp_derive_SteinhartHart_Beta_r_from_ABC profile).parameters.SH.r - 0.02| ≤ 0.005 ∧
    0.0176 < (temp_derive_SteinhartHart_Beta_r_from_ABC profile).parameters.SH.r ∧
    (temp_derive_SteinhartHart_Beta_r_from_ABC profile).parameters.SH.r < 0.0177 := by
  obtain ⟨h1, h2⟩ := temp_derive_SteinhartHart_Beta_r_from_ABC_scenario profile hB hR0 hT0
  obtain ⟨e1, e2⟩ := exp_scenario_bounds
  refine ⟨h1, h2, ?_, ?_, ?_⟩
  · rw [h2, abs_le]
    constructor <;> linarith
  · rw [h2]
    linarith
  · rw [h2]
    linarith

/-- Instance of amended C12 at the profile `scenarioABCProfile`. -/
theorem temp_derive_Beta_r_scenario_witness :
    scenarioABCProfile.parameters.SH.B = 1 / 3950 ∧
    scenarioABCProfile.parameters.SH.R0 = 10000 ∧
    scenarioABCProfile.parameters.SH.T0 = 298.15 ∧
    (temp_derive_SteinhartHart_Beta_r_from_ABC scenarioABCProfile).parameters.SH.Beta = 3950 ∧
    (temp_derive_SteinhartHart_Beta_r_from_ABC scenarioABCProfile).parameters.SH.r
      = 10000 * Real.exp (-3950 / 298.15) ∧
    |(temp_derive_SteinhartHart_Beta_r_from_ABC scenarioABCProfile).parameters.SH.r - 0.02|
      ≤ 0.005 ∧
    0.0176 < (temp_derive_SteinhartHart_Beta_r_from_ABC scenarioABCProfile).parameters.SH.r ∧
    (temp_derive_SteinhartHart_Beta_r_from_ABC scenarioABCProfile).parameters.SH.r < 0.0177 :=
  ⟨rfl, rfl, rfl, temp_derive_Beta_r_scenario scenarioABCProfile rfl rfl rfl⟩

/-! ## Binary32 rounding -/

end MESCtemp
